import Mathlib

/-!
Verification development for the capture-to-graph aggregation pipeline of
`src/server/wiresharkServer.ts` (NetVisThreeJS).

The TypeScript source is shallowly embedded:

* JavaScript `Map` objects (`hosts`, `streams`) iterate in insertion order, so
  they are modelled as association lists to which fresh entries are appended;
  in-place mutation of a stored object is modelled as a keyed update of the
  corresponding list entry.
* JavaScript numbers are modelled as `Nat` for the packet/byte counters (the
  source only ever adds nonnegative integers parsed from decimal strings) and
  as `Rat` for timestamps (exact decimal arithmetic; IEEE rounding is not
  observable by any property considered here).
* `(++this.hostIdCounter).toString()` — decimal rendering of a counter — is
  modelled by `natToDec` below, a decimal-numeral printer.
-/

namespace NetVis

/-! ### Decimal numerals (JS `Number.prototype.toString`) -/

/-- The character for a single decimal digit. -/
def digitChar (d : Nat) : Char := Char.ofNat (48 + d)

/-- Decimal digits, least significant first; `fuel` only bounds the recursion
depth (any `fuel ≥ n` gives the digits of `n`). -/
def toDigitsRevAux : Nat → Nat → List Nat
  | _, 0 => []
  | 0, _ + 1 => []
  | fuel + 1, n + 1 => ((n + 1) % 10) :: toDigitsRevAux fuel ((n + 1) / 10)

/-- Decimal digits of `n`, least significant first (`0` has no digits). -/
def toDigitsRev (n : Nat) : List Nat := toDigitsRevAux n n

/-- Value of a least-significant-first digit list. -/
def ofDigitsRev : List Nat → Nat
  | [] => 0
  | d :: ds => d + 10 * ofDigitsRev ds

/-- Decimal rendering of a natural number, as JS `toString` produces it. -/
def natToDec (n : Nat) : String :=
  if n = 0 then "0" else String.mk (((toDigitsRev n).map digitChar).reverse)

/-! ### Stream keys (`` `${src}-${dst}-${protocol}` ``) -/

/-- The stream-map key built by `addPacket` (line 67 of the source). -/
def mkKey (src dst protocol : String) : String :=
  src ++ "-" ++ dst ++ "-" ++ protocol

/-- A string avoiding the `-` separator (true of all decimal host ids). -/
def DashFree (s : String) : Prop := '-' ∉ s.data

/-! ### Data model (`../types/wireshark`, mirrored in `NetworkVisualization.tsx`) -/

/-- `NetworkHost`: `{ id, ip, packets, bytesTransferred }`. -/
structure NetworkHost where
  id : String
  ip : String
  packets : Nat
  bytesTransferred : Nat
deriving DecidableEq

/-- `NetworkStream`: `{ source, target, protocol, packets, bytes, timestamp }`. -/
structure NetworkStream where
  source : String
  target : String
  protocol : String
  packets : Nat
  bytes : Nat
  timestamp : Rat
deriving DecidableEq

/-- `WiresharkData`: the Graph Snapshot `{ hosts, streams }`. -/
structure WiresharkData where
  hosts : List NetworkHost
  streams : List NetworkStream
deriving DecidableEq

/-- A normalized Packet Record: the values `addPacket` reads out of a
`PacketData` on lines 50–55 of the source (`srcIp`, `dstIp`,
`protocol := getProtocol packet`, `bytes := parseInt(ip.len)`,
`timestamp := parseFloat(frame.time_epoch) * 1000`). -/
structure PacketRec where
  srcIp : String
  dstIp : String
  protocol : String
  bytes : Nat
  timestamp : Rat
deriving DecidableEq

/-! ### `NetworkTrafficAggregator` -/

/-- Aggregator state: the two JS `Map`s and the id counter.  A JS `Map`
iterates in insertion order, so each map is an (insertion-ordered) list;
`hosts` is keyed by the host's `id` field, `streams` by the string key built
on line 67. -/
structure AggSt where
  hosts : List NetworkHost
  streams : List (String × NetworkStream)
  hostIdCounter : Nat
deriving DecidableEq

/-- A freshly constructed `NetworkTrafficAggregator`. -/
def freshAgg : AggSt := ⟨[], [], 0⟩

/-- `getOrCreateHost` (lines 87–99): scan the stored hosts for one with the
given address; otherwise create one with the next sequential decimal id and
append it.  Returns the updated state together with the found/created host. -/
def getOrCreateHost (s : AggSt) (ip : String) : AggSt × NetworkHost :=
  match s.hosts.find? (fun h => h.ip = ip) with
  | some h => (s, h)
  | none =>
    let h : NetworkHost :=
      { id := natToDec (s.hostIdCounter + 1), ip := ip
        packets := 0, bytesTransferred := 0 }
    ({ s with hosts := s.hosts ++ [h], hostIdCounter := s.hostIdCounter + 1 }, h)

/-- In-place mutation `host.packets++; host.bytesTransferred += bytes` of the
host object stored under id `hid` (lines 61–64 act on the object aliased in
the map, so the update is keyed by id). -/
def bumpHost (hosts : List NetworkHost) (hid : String) (bytes : Nat) : List NetworkHost :=
  hosts.map fun h =>
    if h.id = hid then
      { h with packets := h.packets + 1, bytesTransferred := h.bytesTransferred + bytes }
    else h

/-- In-place mutation `stream.packets++; stream.bytes += bytes;
stream.timestamp = timestamp` of the stream stored under `key` (lines 80–82). -/
def bumpStream (streams : List (String × NetworkStream)) (key : String)
    (bytes : Nat) (timestamp : Rat) : List (String × NetworkStream) :=
  streams.map fun kv =>
    if kv.1 = key then
      (kv.1, { kv.2 with
               packets := kv.2.packets + 1
               bytes := kv.2.bytes + bytes
               timestamp := timestamp })
    else kv

/-- The state-updating part of `addPacket` (lines 57–83), applied to the
already-normalized record fields. -/
def addRecord (s : AggSt) (r : PacketRec) : AggSt :=
  let p1 := getOrCreateHost s r.srcIp
  let srcHost := p1.2
  let p2 := getOrCreateHost p1.1 r.dstIp
  let dstHost := p2.2
  let s2 := p2.1
  let hosts := bumpHost (bumpHost s2.hosts srcHost.id r.bytes) dstHost.id r.bytes
  let key := mkKey srcHost.id dstHost.id r.protocol
  let streams0 :=
    match s2.streams.find? (fun kv => kv.1 = key) with
    | some _ => s2.streams
    | none =>
      s2.streams ++ [(key,
        { source := srcHost.id
          target := dstHost.id
          protocol := r.protocol
          packets := 0
          bytes := 0
          timestamp := r.timestamp })]
  { hosts := hosts
    streams := bumpStream streams0 key r.bytes r.timestamp
    hostIdCounter := s2.hostIdCounter }

/-- `getVisualizationData` (lines 108–113). -/
def getVisualizationData (s : AggSt) : WiresharkData :=
  { hosts := s.hosts, streams := s.streams.map Prod.snd }

/-- Folding a sequence of records into a fresh aggregator. -/
def foldRecords (rs : List PacketRec) : AggSt := rs.foldl addRecord freshAgg

/-- `hosts.find(h => h.ip === ip)`: the host stored for an address. -/
def lookupHost (s : AggSt) (ip : String) : Option NetworkHost :=
  s.hosts.find? (fun h => h.ip = ip)

/-! ### First-appearance order of addresses -/

/-- Record an address in the first-appearance list. -/
def touch (seen : List String) (ip : String) : List String :=
  if ip ∈ seen then seen else seen ++ [ip]

/-- Distinct addresses of a record sequence in order of first appearance
(source before destination within one record), continuing a given prefix. -/
def firstSeenFrom (seen : List String) (rs : List PacketRec) : List String :=
  rs.foldl (fun seen r => touch (touch seen r.srcIp) r.dstIp) seen

/-- Distinct addresses of a record sequence in order of first appearance. -/
def firstSeen (rs : List PacketRec) : List String := firstSeenFrom [] rs

/-- The `(id, address)` pairs the aggregator assigns to a list of addresses
when its counter starts at `k`. -/
def idsFrom : Nat → List String → List (String × String)
  | _, [] => []
  | k, a :: rest => (natToDec (k + 1), a) :: idsFrom (k + 1) rest

/-- The shape of the aggregator's host table: ids are the decimal numerals
`1, 2, …` in list order, and the counter equals the table size. -/
def hostsSpec (s : AggSt) : Prop :=
  s.hosts.map (fun h => (h.id, h.ip)) = idsFrom 0 (s.hosts.map NetworkHost.ip) ∧
  s.hostIdCounter = s.hosts.length

/-! ### Invariants preserved by `addPacket` -/

/-- The shape of the aggregator's stream table: every entry sits under the key
built from its own `(source, target, protocol)` triple, both endpoints are ids
of stored hosts, and keys are unique. -/
def streamsSpec (s : AggSt) : Prop :=
  (∀ kv ∈ s.streams, kv.1 = mkKey kv.2.source kv.2.target kv.2.protocol ∧
    kv.2.source ∈ s.hosts.map NetworkHost.id ∧
    kv.2.target ∈ s.hosts.map NetworkHost.id) ∧
  (s.streams.map Prod.fst).Nodup

/-! ### JSON values and a model of `JSON.parse`

The stdout handler (lines 138–153) accumulates chunks in a string buffer and
attempts `JSON.parse(buffer)` after every chunk.  `JSON.parse` succeeds only
when the whole buffer (up to surrounding whitespace) is one JSON value.
Numeric literals are kept as raw text (`Json.num`): the server never reads a
JSON number (every tshark field it uses is a string), so their floating-point
value is never needed. -/

inductive Json where
  | null
  | bool (b : Bool)
  | num (raw : String)
  | str (s : String)
  | arr (elems : List Json)
  | obj (members : List (String × Json))

/-- JSON whitespace. -/
def isWsChar (c : Char) : Bool := c = ' ' || c = '\t' || c = '\n' || c = '\r'

def skipWs : List Char → List Char
  | [] => []
  | c :: cs => if isWsChar c then skipWs cs else c :: cs

def hexVal? (c : Char) : Option Nat :=
  if '0' ≤ c ∧ c ≤ '9' then some (c.toNat - 48)
  else if 'a' ≤ c ∧ c ≤ 'f' then some (c.toNat - 87)
  else if 'A' ≤ c ∧ c ≤ 'F' then some (c.toNat - 55)
  else none

/-- Body of a JSON string literal after the opening quote: the decoded
characters and the remainder after the closing quote. -/
def parseStringBody : List Char → Option (List Char × List Char)
  | [] => none
  | '"' :: rest => some ([], rest)
  | '\\' :: 'u' :: c1 :: c2 :: c3 :: c4 :: rest =>
    match hexVal? c1, hexVal? c2, hexVal? c3, hexVal? c4 with
    | some d1, some d2, some d3, some d4 =>
      match parseStringBody rest with
      | some (s, r) => some (Char.ofNat (((d1 * 16 + d2) * 16 + d3) * 16 + d4) :: s, r)
      | none => none
    | _, _, _, _ => none
  | '\\' :: e :: rest =>
    match (match e with
      | '"' => some '"'
      | '\\' => some '\\'
      | '/' => some '/'
      | 'b' => some (Char.ofNat 8)
      | 'f' => some (Char.ofNat 12)
      | 'n' => some '\n'
      | 'r' => some '\r'
      | 't' => some '\t'
      | _ => none) with
    | some c =>
      match parseStringBody rest with
      | some (s, r) => some (c :: s, r)
      | none => none
    | none => none
  | c :: rest =>
    match parseStringBody rest with
    | some (s, r) => some (c :: s, r)
    | none => none

/-- Longest leading run of decimal digits. -/
def takeDigits : List Char → List Char × List Char
  | [] => ([], [])
  | c :: cs =>
    if c.isDigit then
      let p := takeDigits cs
      (c :: p.1, p.2)
    else ([], c :: cs)

/-- A JSON number literal (kept as raw text). -/
def parseNumber (cs : List Char) : Option (Json × List Char) :=
  let sign : List Char × List Char :=
    match cs with
    | '-' :: r => (['-'], r)
    | _ => ([], cs)
  match takeDigits sign.2 with
  | ([], _) => none
  | (ds, rest1) =>
    if ds.length > 1 ∧ ds.headI = '0' then none
    else
      let frac : List Char × List Char :=
        match rest1 with
        | '.' :: r2 =>
          match takeDigits r2 with
          | ([], _) => ([], rest1)
          | (fs, r3) => ('.' :: fs, r3)
        | _ => ([], rest1)
      let expo : List Char × List Char :=
        match frac.2 with
        | 'e' :: '+' :: r4 =>
          match takeDigits r4 with
          | ([], _) => ([], frac.2)
          | (es, r5) => ('e' :: '+' :: es, r5)
        | 'e' :: '-' :: r4 =>
          match takeDigits r4 with
          | ([], _) => ([], frac.2)
          | (es, r5) => ('e' :: '-' :: es, r5)
        | 'e' :: r4 =>
          match takeDigits r4 with
          | ([], _) => ([], frac.2)
          | (es, r5) => ('e' :: es, r5)
        | 'E' :: r4 =>
          match takeDigits r4 with
          | ([], _) => ([], frac.2)
          | (es, r5) => ('E' :: es, r5)
        | _ => ([], frac.2)
      some (.num (String.mk (sign.1 ++ ds ++ frac.1 ++ expo.1)), expo.2)

mutual

/-- One JSON value (after optional leading whitespace); `fuel` bounds the
recursion depth and is always called with more fuel than characters. -/
def parseValue : Nat → List Char → Option (Json × List Char)
  | 0, _ => none
  | fuel + 1, cs =>
    match skipWs cs with
    | 'n' :: 'u' :: 'l' :: 'l' :: rest => some (.null, rest)
    | 't' :: 'r' :: 'u' :: 'e' :: rest => some (.bool true, rest)
    | 'f' :: 'a' :: 'l' :: 's' :: 'e' :: rest => some (.bool false, rest)
    | '"' :: rest =>
      match parseStringBody rest with
      | some (content, r) => some (.str (String.mk content), r)
      | none => none
    | '{' :: rest =>
      match skipWs rest with
      | '}' :: r => some (.obj [], r)
      | rest' =>
        match parseMembers fuel rest' with
        | some (ms, r) => some (.obj ms, r)
        | none => none
    | '[' :: rest =>
      match skipWs rest with
      | ']' :: r => some (.arr [], r)
      | rest' =>
        match parseElems fuel rest' with
        | some (xs, r) => some (.arr xs, r)
        | none => none
    | rest => parseNumber rest

/-- The members of a JSON object after `{` (at least one member). -/
def parseMembers : Nat → List Char → Option (List (String × Json) × List Char)
  | 0, _ => none
  | fuel + 1, cs =>
    match skipWs cs with
    | '"' :: rest =>
      match parseStringBody rest with
      | none => none
      | some (key, r1) =>
        match skipWs r1 with
        | ':' :: r2 =>
          match parseValue fuel r2 with
          | none => none
          | some (v, r3) =>
            match skipWs r3 with
            | ',' :: r4 =>
              match parseMembers fuel r4 with
              | some (ms, r5) => some ((String.mk key, v) :: ms, r5)
              | none => none
            | '}' :: r4 => some ([(String.mk key, v)], r4)
            | _ => none
        | _ => none
    | _ => none

/-- The elements of a JSON array after `[` (at least one element). -/
def parseElems : Nat → List Char → Option (List Json × List Char)
  | 0, _ => none
  | fuel + 1, cs =>
    match parseValue fuel cs with
    | none => none
    | some (v, r1) =>
      match skipWs r1 with
      | ',' :: r2 =>
        match parseElems fuel r2 with
        | some (xs, r3) => some (v :: xs, r3)
        | none => none
      | ']' :: r2 => some ([v], r2)
      | _ => none

end

/-- `JSON.parse`: the entire buffer must be one JSON value, with nothing but
whitespace around it — trailing content is a parse error. -/
def jsonParse (s : String) : Option Json :=
  match parseValue (s.length + 1) s.data with
  | some (j, rest) => if skipWs rest = [] then some j else none
  | none => none

/-! ### The packet record fields read by `addPacket`

The TS `PacketData` interface declares `_source.layers` with `frame`, `ip`
and optional `tcp`/`udp` members.  `addPacket` (lines 49–55) reads
`ip["ip.src"]`, `ip["ip.dst"]`, `ip["ip.len"]`,
`frame["frame.time_epoch"]`, and `getProtocol` (lines 101–106) only tests
the truthiness of `layers.tcp` / `layers.udp`; the declared `ip.proto` and
port fields are never read by the server.  `extractPacket` below returns
`none` exactly where the JS field accesses would throw (a missing
`_source`/`layers`/`ip`/`frame` object), and — as a modelling restriction —
when a read field is not a string (JS would instead silently produce
`undefined`, and `parseInt`/`parseFloat` would produce `NaN` counters, which
the `Nat`-valued model does not represent; no claim exercises those inputs). -/

structure PacketData where
  timeEpoch : String
  ipSrc : String
  ipDst : String
  ipLen : String
  tcp : Bool
  udp : Bool
deriving DecidableEq

def asObj : Json → Option (List (String × Json))
  | .obj ms => some ms
  | _ => none

def asStr : Json → Option String
  | .str s => some s
  | _ => none

def objGet (ms : List (String × Json)) (k : String) : Option Json :=
  (ms.find? (fun kv => kv.1 = k)).map Prod.snd

/-- Is the mantissa of a numeric literal all zeroes (JS numeric value 0)? -/
def numMantissaZero (raw : String) : Bool :=
  (raw.data.takeWhile (fun c => !(c = 'e' || c = 'E'))).all
    (fun c => !c.isDigit || c = '0')

/-- JS truthiness of a parsed JSON value (`if (packet._source.layers.tcp)`). -/
def jsonTruthy : Json → Bool
  | .null => false
  | .bool b => b
  | .num raw => !numMantissaZero raw
  | .str s => !(s = "")
  | .arr _ => true
  | .obj _ => true

/-- `getProtocol` (lines 101–106). -/
def getProtocol (p : PacketData) : String :=
  if p.tcp then "TCP" else if p.udp then "UDP" else "OTHER"

/-- The field reads of `addPacket` (lines 50–55) on a parsed JSON value. -/
def extractPacket (j : Json) : Option PacketData := do
  let root ← asObj j
  let src ← (objGet root "_source").bind asObj
  let layers ← (objGet src "layers").bind asObj
  let frame ← (objGet layers "frame").bind asObj
  let ip ← (objGet layers "ip").bind asObj
  let epoch ← (objGet frame "frame.time_epoch").bind asStr
  let ipSrc ← (objGet ip "ip.src").bind asStr
  let ipDst ← (objGet ip "ip.dst").bind asStr
  let ipLen ← (objGet ip "ip.len").bind asStr
  pure { timeEpoch := epoch, ipSrc := ipSrc, ipDst := ipDst, ipLen := ipLen
         tcp := (objGet layers "tcp").elim false jsonTruthy
         udp := (objGet layers "udp").elim false jsonTruthy }

/-- Value of a digit run. -/
def decValue (ds : List Char) : Nat :=
  ds.foldl (fun acc c => acc * 10 + (c.toNat - 48)) 0

/-- `parseInt` (line 54) on the decimal strings the model covers: leading
digits, trailing junk ignored; `none` where JS yields `NaN` (or a negative
number, which no `ip.len` carries). -/
def parseNat? (s : String) : Option Nat :=
  match takeDigits s.data with
  | ([], _) => none
  | (ds, _) => some (decValue ds)

/-- `parseFloat` (line 55) on plain decimal strings (the shape of tshark's
`frame.time_epoch`), as an exact rational. -/
def parseFloat? (s : String) : Option Rat :=
  match takeDigits s.data with
  | ([], _) => none
  | (ds, rest) =>
    match rest with
    | '.' :: r2 =>
      match takeDigits r2 with
      | ([], _) => some (decValue ds)
      | (fs, _) => some ((decValue ds : Rat) + (decValue fs : Rat) / ((10 : Rat) ^ fs.length))
    | _ => some (decValue ds)

/-- Lines 51–55: the normalized values `addPacket` computes before mutating
state (`timestamp = parseFloat(...) * 1000`). -/
def normalize (p : PacketData) : Option PacketRec := do
  let bytes ← parseNat? p.ipLen
  let epoch ← parseFloat? p.timeEpoch
  pure { srcIp := p.ipSrc, dstIp := p.ipDst, protocol := getProtocol p
         bytes := bytes, timestamp := epoch * 1000 }

/-- Full decode of an accumulated buffer: `JSON.parse` + the field reads. -/
def decodeRecord (buffer : String) : Option PacketRec :=
  ((jsonParse buffer).bind extractPacket).bind normalize

/-- Messages the server emits to clients over the socket. -/
inductive SrvEvent where
  | networkUpdate (d : WiresharkData)
  | errorMsg (m : String)
deriving DecidableEq

/-- The tshark stdout `data` handler (lines 138–153): append the chunk to the
buffer; on a successful parse fold the packet, emit `networkUpdate`, and clear
the buffer; otherwise keep the buffer, resetting it if it exceeds 1,000,000
(the `catch` also swallows the field-access throws of `addPacket`, in which
case the buffer is likewise retained and nothing is emitted). -/
def stdoutData (buf : String) (agg : AggSt) (chunk : String) :
    String × AggSt × List SrvEvent :=
  let b := buf ++ chunk
  match decodeRecord b with
  | some r =>
    let agg' := addRecord agg r
    ("", agg', [SrvEvent.networkUpdate (getVisualizationData agg')])
  | none =>
    (if b.length > 1000000 then "" else b, agg, [])

/-- A whole stdout delivery sequence, from a fresh capture session. -/
def runStdout (chunks : List String) : String × AggSt :=
  chunks.foldl (fun st chunk =>
    let r := stdoutData st.1 st.2 chunk
    (r.1, r.2.1)) ("", freshAgg)

/-! ### Claims C3 and C8: what the decoder does with complete units -/

/-- A complete tshark-style record as one JSON text. -/
def sampleRecordJson : String :=
  "\x7b\"_source\":\x7b\"layers\":\x7b\"frame\":\x7b\"frame.time_epoch\":\"2.5\"\x7d,\"ip\":\x7b\"ip.src\":\"10.0.0.1\",\"ip.dst\":\"10.0.0.2\",\"ip.proto\":\"6\",\"ip.len\":\"100\"\x7d,\"tcp\":\x7b\"tcp.srcport\":\"1\",\"tcp.dstport\":\"2\"\x7d\x7d\x7d\x7d"

/-! ### The synthetic traffic source and the connection handler

`TestTrafficGenerator` (lines 166–268) is instantiated once at module level
(line 271) and shared by every connection; `start` is a no-op when already
running and neither `start` nor `stop` ever resets the generator's aggregator.
The random packet built by `generateRandomPacket` is modelled as an input to
`tick` (one `setInterval` callback, lines 186–190), already normalized; the
snapshot is broadcast with `io.emit`, i.e. to every connected client. -/

structure TestGen where
  running : Bool
  agg : AggSt
deriving DecidableEq

/-- `new TestTrafficGenerator()` (constructor lines 177–179; single module
instance at line 271). -/
def TestGen.init : TestGen := ⟨false, freshAgg⟩

/-- `start` (lines 181–191): no-op when already running; the aggregator is
whatever it was. -/
def TestGen.start (g : TestGen) : TestGen :=
  if g.running then g else { g with running := true }

/-- `stop` (lines 193–201): clears the timer only; the aggregator survives. -/
def TestGen.stop (g : TestGen) : TestGen :=
  if g.running then { g with running := false } else g

/-- One timer tick (lines 186–190): fold one generated record into the shared
aggregator and broadcast the snapshot to all clients. -/
def TestGen.tick (g : TestGen) (r : PacketRec) : TestGen × List SrvEvent :=
  if g.running then
    ({ g with agg := addRecord g.agg r },
      [SrvEvent.networkUpdate (getVisualizationData (addRecord g.agg r))])
  else (g, [])

/-- Capture subprocesses: spawned handles (pids) stay alive until killed. -/
structure ProcWorld where
  nextPid : Nat
  liveProcs : List Nat
deriving DecidableEq

/-- `startCapture` (lines 116–126): spawn a new tshark subprocess (with its
own fresh aggregator and buffer). -/
def spawnCapture (w : ProcWorld) : Nat × ProcWorld :=
  (w.nextPid, { nextPid := w.nextPid + 1, liveProcs := w.liveProcs ++ [w.nextPid] })

/-- The per-connection closure state: the `capture` variable (line 275). -/
structure ConnSt where
  capture : Option Nat
deriving DecidableEq

/-- The `startCapture` socket handler (lines 277–290): `"test"` starts the
shared generator; any other interface spawns a subprocess, overwriting the
`capture` handle without touching the previous subprocess. -/
def onStartCapture (c : ConnSt) (w : ProcWorld) (g : TestGen) (iface : String) :
    ConnSt × ProcWorld × TestGen :=
  if iface = "test" then (c, w, g.start)
  else
    let p := spawnCapture w
    ({ capture := some p.1 }, p.2, g)

/-- `capture.kill()`. -/
def killProc (w : ProcWorld) (pid : Nat) : ProcWorld :=
  { w with liveProcs := w.liveProcs.filter (fun q => !(q = pid)) }

/-- The `disconnect` handler (lines 301–310): kill the held capture handle,
if any, and stop the shared generator. -/
def onDisconnect (c : ConnSt) (w : ProcWorld) (g : TestGen) :
    ConnSt × ProcWorld × TestGen :=
  let w' := match c.capture with
    | some pid => killProc w pid
    | none => w
  (⟨none⟩, w', g.stop)


theorem toDigitsRevAux_congr (n : Nat) : ∀ f1 f2, n ≤ f1 → n ≤ f2 →
    toDigitsRevAux f1 n = toDigitsRevAux f2 n := by
  induction n using Nat.strong_induction_on with
  | _ n ih =>
    intro f1 f2 h1 h2
    match n, f1, f2 with
    | 0, g1, g2 => cases g1 <;> cases g2 <;> rfl
    | n + 1, g1 + 1, g2 + 1 =>
      have hlt : (n + 1) / 10 < n + 1 := Nat.div_lt_self (Nat.succ_pos _) (by norm_num)
      rw [toDigitsRevAux, toDigitsRevAux,
        ih ((n + 1) / 10) hlt g1 g2 (by omega) (by omega)]

theorem toDigitsRev_succ (n : Nat) :
    toDigitsRev (n + 1) = ((n + 1) % 10) :: toDigitsRev ((n + 1) / 10) := by
  have hlt : (n + 1) / 10 < n + 1 := Nat.div_lt_self (Nat.succ_pos _) (by norm_num)
  show toDigitsRevAux (n + 1) (n + 1) = _
  rw [toDigitsRevAux,
    toDigitsRevAux_congr ((n + 1) / 10) n ((n + 1) / 10) (by omega) (le_refl _)]
  rfl

theorem ofDigitsRev_toDigitsRev (n : Nat) : ofDigitsRev (toDigitsRev n) = n := by
  induction n using Nat.strong_induction_on with
  | _ n ih =>
    match n with
    | 0 => rfl
    | n + 1 =>
      rw [toDigitsRev_succ, ofDigitsRev,
        ih ((n + 1) / 10) (Nat.div_lt_self (Nat.succ_pos _) (by norm_num))]
      exact Nat.mod_add_div (n + 1) 10

theorem toDigitsRev_injective {m n : Nat} (h : toDigitsRev m = toDigitsRev n) : m = n := by
  have := ofDigitsRev_toDigitsRev m
  rw [h, ofDigitsRev_toDigitsRev] at this
  omega

theorem toDigitsRev_lt_ten (n : Nat) : ∀ d ∈ toDigitsRev n, d < 10 := by
  induction n using Nat.strong_induction_on with
  | _ n ih =>
    match n with
    | 0 => simp [toDigitsRev, toDigitsRevAux]
    | n + 1 =>
      rw [toDigitsRev_succ]
      intro d hd
      rcases List.mem_cons.1 hd with h | h
      · subst h; exact Nat.mod_lt _ (by norm_num)
      · exact ih ((n + 1) / 10) (Nat.div_lt_self (Nat.succ_pos _) (by norm_num)) d h

/-- Sanity check: `natToDec` renders decimal numerals exactly as JS
`toString` does. -/
theorem natToDec_examples :
    natToDec 1 = "1" ∧ natToDec 2 = "2" ∧ natToDec 10 = "10" ∧
    natToDec 105 = "105" ∧ natToDec 0 = "0" := by decide

theorem digitChar_inj : ∀ d < 10, ∀ e < 10, digitChar d = digitChar e → d = e := by decide

theorem digitChar_ne_dash : ∀ d < 10, digitChar d ≠ '-' := by decide

theorem map_digitChar_inj : ∀ (l1 l2 : List Nat), (∀ d ∈ l1, d < 10) → (∀ d ∈ l2, d < 10) →
    l1.map digitChar = l2.map digitChar → l1 = l2 := by
  intro l1
  induction l1 with
  | nil => intro l2 _ _ h; cases l2 <;> simp_all
  | cons d ds ih =>
    intro l2 h1 h2 h
    cases l2 with
    | nil => simp at h
    | cons e es =>
      simp only [List.map_cons, List.cons.injEq] at h
      have hd : d = e :=
        digitChar_inj d (h1 d (by simp)) e (h2 e (by simp)) h.1
      have hds : ds = es := ih es (fun x hx => h1 x (by simp [hx]))
        (fun x hx => h2 x (by simp [hx])) h.2
      simp [hd, hds]

theorem natToDec_pos_inj {m n : Nat} (h : natToDec (m + 1) = natToDec (n + 1)) :
    m = n := by
  unfold natToDec at h
  simp only [Nat.succ_ne_zero, if_neg] at h
  have hdata : (((toDigitsRev (m + 1)).map digitChar).reverse) =
      (((toDigitsRev (n + 1)).map digitChar).reverse) := congrArg String.data h
  have hmap := List.reverse_injective hdata
  have := map_digitChar_inj _ _ (toDigitsRev_lt_ten _) (toDigitsRev_lt_ten _) hmap
  have := toDigitsRev_injective this
  omega

theorem natToDec_no_dash (n : Nat) : '-' ∉ (natToDec n).data := by
  unfold natToDec
  split
  · intro h; simp at h
  · intro h
    simp only [String.mk] at h
    rw [List.mem_reverse] at h
    rcases List.mem_map.1 h with ⟨d, hd, hcd⟩
    exact digitChar_ne_dash d (toDigitsRev_lt_ten n d hd) hcd

theorem splitDash : ∀ (l1 l2 r1 r2 : List Char), '-' ∉ l1 → '-' ∉ l2 →
    l1 ++ '-' :: r1 = l2 ++ '-' :: r2 → l1 = l2 ∧ r1 = r2 := by
  intro l1
  induction l1 with
  | nil =>
    intro l2 r1 r2 _ h2 h
    cases l2 with
    | nil => simpa using h
    | cons c cs =>
      simp only [List.nil_append, List.cons_append, List.cons.injEq] at h
      exact absurd (h.1 ▸ List.mem_cons_self c cs) (by simp_all)
  | cons c cs ih =>
    intro l2 r1 r2 h1 h2 h
    cases l2 with
    | nil =>
      simp only [List.nil_append, List.cons_append, List.cons.injEq] at h
      exact absurd (h.1 ▸ List.mem_cons_self c cs) (by simp_all)
    | cons e es =>
      simp only [List.cons_append, List.cons.injEq] at h
      obtain ⟨rfl, h⟩ := h
      have := ih es r1 r2 (fun hc => h1 (List.mem_cons_of_mem _ hc))
        (fun hc => h2 (List.mem_cons_of_mem _ hc)) h
      simp [this.1, this.2]

theorem mkKey_inj {a b p a' b' p' : String} (ha : DashFree a) (hb : DashFree b)
    (ha' : DashFree a') (hb' : DashFree b')
    (h : mkKey a b p = mkKey a' b' p') : a = a' ∧ b = b' ∧ p = p' := by
  have hdata : a.data ++ '-' :: (b.data ++ '-' :: p.data) =
      a'.data ++ '-' :: (b'.data ++ '-' :: p'.data) := by
    have := congrArg String.data h
    simpa [mkKey, String.data_append] using this
  obtain ⟨h1, h2⟩ := splitDash _ _ _ _ ha ha' hdata
  obtain ⟨h3, h4⟩ := splitDash _ _ _ _ hb hb' h2
  refine ⟨?_, ?_, ?_⟩
  · cases a; cases a'; exact congrArg String.mk h1
  · cases b; cases b'; exact congrArg String.mk h3
  · cases p; cases p'; exact congrArg String.mk h4

theorem idsFrom_append (k : Nat) (l1 l2 : List String) :
    idsFrom k (l1 ++ l2) = idsFrom k l1 ++ idsFrom (k + l1.length) l2 := by
  induction l1 generalizing k with
  | nil => simp [idsFrom]
  | cons a rest ih =>
    have harith : k + 1 + rest.length = k + (rest.length + 1) := by omega
    simp only [List.cons_append, idsFrom, List.length_cons, List.append_eq]
    rw [ih (k + 1), harith]

theorem idsFrom_length (k : Nat) (l : List String) : (idsFrom k l).length = l.length := by
  induction l generalizing k with
  | nil => rfl
  | cons a rest ih => simp [idsFrom, ih]

theorem idsFrom_snd (k : Nat) (l : List String) : (idsFrom k l).map Prod.snd = l := by
  induction l generalizing k with
  | nil => rfl
  | cons a rest ih => simp [idsFrom, ih]

theorem idsFrom_fst_natToDec (k : Nat) (l : List String) :
    ∀ x ∈ idsFrom k l, ∃ m, x.1 = natToDec (m + 1) := by
  induction l generalizing k with
  | nil => simp [idsFrom]
  | cons a rest ih =>
    intro x hx
    rcases List.mem_cons.1 hx with h | h
    · exact ⟨k, by simp [h]⟩
    · exact ih (k + 1) x h

/-! ### Basic lemmas about the aggregator's update steps -/

theorem bumpHost_proj (hs : List NetworkHost) (hid : String) (b : Nat) :
    (bumpHost hs hid b).map (fun h => (h.id, h.ip)) = hs.map (fun h => (h.id, h.ip)) := by
  unfold bumpHost
  rw [List.map_map]
  apply List.map_congr_left
  intro h _
  by_cases hc : h.id = hid <;> simp [hc]

theorem bumpHost_map_ip (hs : List NetworkHost) (hid : String) (b : Nat) :
    (bumpHost hs hid b).map NetworkHost.ip = hs.map NetworkHost.ip := by
  unfold bumpHost
  rw [List.map_map]
  apply List.map_congr_left
  intro h _
  by_cases hc : h.id = hid <;> simp [hc]

theorem bumpHost_map_id (hs : List NetworkHost) (hid : String) (b : Nat) :
    (bumpHost hs hid b).map NetworkHost.id = hs.map NetworkHost.id := by
  unfold bumpHost
  rw [List.map_map]
  apply List.map_congr_left
  intro h _
  by_cases hc : h.id = hid <;> simp [hc]

theorem bumpHost_length (hs : List NetworkHost) (hid : String) (b : Nat) :
    (bumpHost hs hid b).length = hs.length := by
  simp [bumpHost]

theorem bumpStream_map_fst (streams : List (String × NetworkStream)) (key : String)
    (b : Nat) (t : Rat) : (bumpStream streams key b t).map Prod.fst = streams.map Prod.fst := by
  unfold bumpStream
  rw [List.map_map]
  apply List.map_congr_left
  intro kv _
  by_cases hc : kv.1 = key <;> simp [hc]

theorem find?_ip_eq_none {hs : List NetworkHost} {ip : String} :
    hs.find? (fun h => h.ip = ip) = none ↔ ip ∉ hs.map NetworkHost.ip := by
  rw [List.find?_eq_none]
  constructor
  · intro h hmem
    rcases List.mem_map.1 hmem with ⟨x, hx, hips⟩
    exact h x hx (by simp [hips])
  · intro h x hx hpx
    exact h (List.mem_map.2 ⟨x, hx, by simpa using hpx⟩)

theorem goc_found {s : AggSt} {ip : String} {h : NetworkHost}
    (hf : s.hosts.find? (fun h => h.ip = ip) = some h) :
    getOrCreateHost s ip = (s, h) := by
  unfold getOrCreateHost
  rw [hf]

theorem goc_new {s : AggSt} {ip : String}
    (hf : s.hosts.find? (fun h => h.ip = ip) = none) :
    getOrCreateHost s ip =
      ({ s with
          hosts := s.hosts ++
            [{ id := natToDec (s.hostIdCounter + 1), ip := ip
               packets := 0, bytesTransferred := 0 }]
          hostIdCounter := s.hostIdCounter + 1 },
        { id := natToDec (s.hostIdCounter + 1), ip := ip
          packets := 0, bytesTransferred := 0 }) := by
  unfold getOrCreateHost
  rw [hf]

theorem goc_ret_ip (s : AggSt) (ip : String) : (getOrCreateHost s ip).2.ip = ip := by
  cases hf : s.hosts.find? (fun h => h.ip = ip) with
  | some h =>
    rw [goc_found hf]
    simpa using List.find?_some hf
  | none => rw [goc_new hf]

theorem goc_ret_mem (s : AggSt) (ip : String) :
    (getOrCreateHost s ip).2 ∈ (getOrCreateHost s ip).1.hosts := by
  cases hf : s.hosts.find? (fun h => h.ip = ip) with
  | some h =>
    rw [goc_found hf]
    exact List.mem_of_find?_eq_some hf
  | none =>
    rw [goc_new hf]
    simp

theorem goc_hosts_extend (s : AggSt) (ip : String) :
    s.hosts <+: (getOrCreateHost s ip).1.hosts := by
  cases hf : s.hosts.find? (fun h => h.ip = ip) with
  | some h => rw [goc_found hf]
  | none =>
    rw [goc_new hf]
    exact List.prefix_append _ _

theorem goc_streams (s : AggSt) (ip : String) :
    (getOrCreateHost s ip).1.streams = s.streams := by
  cases hf : s.hosts.find? (fun h => h.ip = ip) with
  | some h => rw [goc_found hf]
  | none => rw [goc_new hf]

theorem goc_map_ip (s : AggSt) (ip : String) :
    (getOrCreateHost s ip).1.hosts.map NetworkHost.ip =
      touch (s.hosts.map NetworkHost.ip) ip := by
  cases hf : s.hosts.find? (fun h => h.ip = ip) with
  | some h =>
    rw [goc_found hf]
    have hmem : ip ∈ s.hosts.map NetworkHost.ip := by
      by_contra hc
      rw [← find?_ip_eq_none] at hc
      simp [hc] at hf
    simp [touch, hmem]
  | none =>
    rw [goc_new hf]
    have hni : ip ∉ s.hosts.map NetworkHost.ip := find?_ip_eq_none.1 hf
    simp [touch, hni]

theorem hostsSpec_goc {s : AggSt} (ip : String) (hspec : hostsSpec s) :
    hostsSpec (getOrCreateHost s ip).1 := by
  cases hf : s.hosts.find? (fun h => h.ip = ip) with
  | some h => rw [goc_found hf]; exact hspec
  | none =>
    rw [goc_new hf]
    obtain ⟨hpairs, hcnt⟩ := hspec
    constructor
    · simp only [List.map_append, List.map_cons, List.map_nil]
      rw [hpairs, idsFrom_append]
      simp [idsFrom, hcnt, List.length_map]
    · simp [hcnt]

theorem find?_key_eq_none {streams : List (String × NetworkStream)} {key : String} :
    streams.find? (fun kv => kv.1 = key) = none ↔ key ∉ streams.map Prod.fst := by
  rw [List.find?_eq_none]
  constructor
  · intro h hmem
    rcases List.mem_map.1 hmem with ⟨x, hx, hk⟩
    exact h x hx (by simp [hk])
  · intro h x hx hpx
    exact h (List.mem_map.2 ⟨x, hx, by simpa using hpx⟩)

theorem addRecord_map_ip (s : AggSt) (r : PacketRec) :
    (addRecord s r).hosts.map NetworkHost.ip =
      touch (touch (s.hosts.map NetworkHost.ip) r.srcIp) r.dstIp := by
  simp only [addRecord]
  rw [bumpHost_map_ip, bumpHost_map_ip, goc_map_ip, goc_map_ip]

theorem addRecord_hostsSpec {s : AggSt} (r : PacketRec) (hspec : hostsSpec s) :
    hostsSpec (addRecord s r) := by
  have h2 := hostsSpec_goc r.dstIp (hostsSpec_goc r.srcIp hspec)
  obtain ⟨hpairs, hcnt⟩ := h2
  constructor
  · simp only [addRecord]
    rw [bumpHost_proj, bumpHost_proj, bumpHost_map_ip, bumpHost_map_ip]
    exact hpairs
  · simp only [addRecord]
    rw [bumpHost_length, bumpHost_length]
    exact hcnt

theorem addRecord_pair_extend (s : AggSt) (r : PacketRec) :
    s.hosts.map (fun h => (h.id, h.ip)) <+:
      (addRecord s r).hosts.map (fun h => (h.id, h.ip)) := by
  simp only [addRecord]
  rw [bumpHost_proj, bumpHost_proj]
  exact ((goc_hosts_extend s r.srcIp).trans
    (goc_hosts_extend _ r.dstIp)).map (fun h => (h.id, h.ip))

theorem addRecord_map_id_extend (s : AggSt) (r : PacketRec) :
    s.hosts.map NetworkHost.id <+: (addRecord s r).hosts.map NetworkHost.id := by
  simp only [addRecord]
  rw [bumpHost_map_id, bumpHost_map_id]
  exact ((goc_hosts_extend s r.srcIp).trans
    (goc_hosts_extend _ r.dstIp)).map NetworkHost.id

theorem bumpStream_entry_proj {streams : List (String × NetworkStream)} {key : String}
    {b : Nat} {t : Rat} :
    ∀ kv ∈ bumpStream streams key b t, ∃ kv0 ∈ streams, kv.1 = kv0.1 ∧
      kv.2.source = kv0.2.source ∧ kv.2.target = kv0.2.target ∧
      kv.2.protocol = kv0.2.protocol := by
  intro kv hkv
  rcases List.mem_map.1 hkv with ⟨kv0, hkv0, hf⟩
  refine ⟨kv0, hkv0, ?_⟩
  by_cases hc : kv0.1 = key <;> simp [hc] at hf <;> simp [← hf, hc]

theorem addRecord_streamsSpec {s : AggSt} (r : PacketRec) (hstr : streamsSpec s) :
    streamsSpec (addRecord s r) := by
  obtain ⟨hent, hnodup⟩ := hstr
  have hstreams2 : (getOrCreateHost (getOrCreateHost s r.srcIp).1 r.dstIp).1.streams
      = s.streams := by rw [goc_streams, goc_streams]
  have hidpre : s.hosts.map NetworkHost.id <+:
      (addRecord s r).hosts.map NetworkHost.id := addRecord_map_id_extend s r
  have hsrcmem : (getOrCreateHost s r.srcIp).2.id ∈
      (addRecord s r).hosts.map NetworkHost.id := by
    simp only [addRecord]
    rw [bumpHost_map_id, bumpHost_map_id]
    exact List.mem_map_of_mem NetworkHost.id
      ((goc_hosts_extend _ r.dstIp).subset (goc_ret_mem s r.srcIp))
  have hdstmem : (getOrCreateHost (getOrCreateHost s r.srcIp).1 r.dstIp).2.id ∈
      (addRecord s r).hosts.map NetworkHost.id := by
    simp only [addRecord]
    rw [bumpHost_map_id, bumpHost_map_id]
    exact List.mem_map_of_mem NetworkHost.id (goc_ret_mem _ r.dstIp)
  constructor
  · intro kv hkv
    simp only [addRecord] at hkv
    rw [hstreams2] at hkv
    rcases bumpStream_entry_proj kv hkv with ⟨kv0, hkv0, hk, hsrc, htgt, hproto⟩
    cases hfind : s.streams.find? (fun kv =>
        kv.1 = mkKey (getOrCreateHost s r.srcIp).2.id
          (getOrCreateHost (getOrCreateHost s r.srcIp).1 r.dstIp).2.id r.protocol) with
    | some e =>
      rw [hfind] at hkv0
      rcases hent kv0 hkv0 with ⟨hk0, hs0, ht0⟩
      exact ⟨by rw [hk, hsrc, htgt, hproto]; exact hk0,
        hsrc ▸ hidpre.subset hs0, htgt ▸ hidpre.subset ht0⟩
    | none =>
      rw [hfind] at hkv0
      rcases List.mem_append.1 hkv0 with hold | hnew
      · rcases hent kv0 hold with ⟨hk0, hs0, ht0⟩
        exact ⟨by rw [hk, hsrc, htgt, hproto]; exact hk0,
          hsrc ▸ hidpre.subset hs0, htgt ▸ hidpre.subset ht0⟩
      · simp only [List.mem_singleton] at hnew
        subst hnew
        refine ⟨by rw [hk, hsrc, htgt, hproto], ?_, ?_⟩
        · rw [hsrc]; exact hsrcmem
        · rw [htgt]; exact hdstmem
  · simp only [addRecord]
    rw [bumpStream_map_fst, hstreams2]
    cases hfind : s.streams.find? (fun kv =>
        kv.1 = mkKey (getOrCreateHost s r.srcIp).2.id
          (getOrCreateHost (getOrCreateHost s r.srcIp).1 r.dstIp).2.id r.protocol) with
    | some e => exact hnodup
    | none =>
      have hni := find?_key_eq_none.1 hfind
      simp [List.nodup_append, hnodup, hni]

/-! ### Fold-level invariants -/

theorem touch_extend (seen : List String) (ip : String) : seen <+: touch seen ip := by
  unfold touch
  split
  · exact List.prefix_refl seen
  · exact List.prefix_append _ _

theorem touch_nodup {seen : List String} (h : seen.Nodup) (ip : String) :
    (touch seen ip).Nodup := by
  unfold touch
  split
  · exact h
  · next hni => simp [List.nodup_append, h, hni]

theorem firstSeenFrom_extend (rs : List PacketRec) (seen : List String) :
    seen <+: firstSeenFrom seen rs := by
  induction rs generalizing seen with
  | nil => exact List.prefix_refl seen
  | cons r rest ih =>
    exact ((touch_extend seen r.srcIp).trans (touch_extend _ r.dstIp)).trans (ih _)

theorem firstSeenFrom_nodup {seen : List String} (h : seen.Nodup) (rs : List PacketRec) :
    (firstSeenFrom seen rs).Nodup := by
  induction rs generalizing seen with
  | nil => exact h
  | cons r rest ih => exact ih (touch_nodup (touch_nodup h r.srcIp) r.dstIp)

theorem firstSeenFrom_append (seen : List String) (rs rs' : List PacketRec) :
    firstSeenFrom seen (rs ++ rs') = firstSeenFrom (firstSeenFrom seen rs) rs' :=
  List.foldl_append _ _ _ _

theorem foldl_addRecord_inv (rs : List PacketRec) :
    ∀ s : AggSt, hostsSpec s → streamsSpec s →
      hostsSpec (rs.foldl addRecord s) ∧ streamsSpec (rs.foldl addRecord s) ∧
      (rs.foldl addRecord s).hosts.map NetworkHost.ip =
        firstSeenFrom (s.hosts.map NetworkHost.ip) rs := by
  induction rs with
  | nil => intro s h1 h2; exact ⟨h1, h2, rfl⟩
  | cons r rest ih =>
    intro s h1 h2
    have hstep := ih (addRecord s r) (addRecord_hostsSpec r h1) (addRecord_streamsSpec r h2)
    refine ⟨hstep.1, hstep.2.1, ?_⟩
    rw [List.foldl_cons] at *
    rw [hstep.2.2, addRecord_map_ip]
    rfl

theorem foldRecords_hostsSpec (rs : List PacketRec) : hostsSpec (foldRecords rs) :=
  (foldl_addRecord_inv rs freshAgg ⟨rfl, rfl⟩ ⟨by simp [freshAgg], by simp [freshAgg]⟩).1

theorem foldRecords_streamsSpec (rs : List PacketRec) : streamsSpec (foldRecords rs) :=
  (foldl_addRecord_inv rs freshAgg ⟨rfl, rfl⟩ ⟨by simp [freshAgg], by simp [freshAgg]⟩).2.1

theorem foldRecords_map_ip (rs : List PacketRec) :
    (foldRecords rs).hosts.map NetworkHost.ip = firstSeen rs :=
  (foldl_addRecord_inv rs freshAgg ⟨rfl, rfl⟩ ⟨by simp [freshAgg], by simp [freshAgg]⟩).2.2

theorem foldRecords_ips_nodup (rs : List PacketRec) :
    ((foldRecords rs).hosts.map NetworkHost.ip).Nodup := by
  rw [foldRecords_map_ip]
  exact firstSeenFrom_nodup List.nodup_nil rs

theorem foldRecords_append (rs rs' : List PacketRec) :
    foldRecords (rs ++ rs') = rs'.foldl addRecord (foldRecords rs) :=
  List.foldl_append _ _ _ _

/-! ### Host ids: decimal, distinct, determined by first-appearance order -/

theorem idsFrom_fst_ge (k : Nat) (l : List String) :
    ∀ x ∈ (idsFrom k l).map Prod.fst, ∃ m, k ≤ m ∧ x = natToDec (m + 1) := by
  induction l generalizing k with
  | nil => simp [idsFrom]
  | cons a rest ih =>
    intro x hx
    simp only [idsFrom, List.map_cons, List.mem_cons] at hx
    rcases hx with h | h
    · exact ⟨k, le_refl k, h⟩
    · rcases ih (k + 1) x h with ⟨m, hm, hx⟩
      exact ⟨m, by omega, hx⟩

theorem idsFrom_fst_nodup (k : Nat) (l : List String) :
    ((idsFrom k l).map Prod.fst).Nodup := by
  induction l generalizing k with
  | nil => simp [idsFrom]
  | cons a rest ih =>
    simp only [idsFrom, List.map_cons, List.nodup_cons]
    refine ⟨?_, ih (k + 1)⟩
    intro hmem
    rcases idsFrom_fst_ge (k + 1) rest _ hmem with ⟨m, hm, heq⟩
    have := natToDec_pos_inj heq
    omega

theorem hosts_map_id_eq {s : AggSt} (hspec : hostsSpec s) :
    s.hosts.map NetworkHost.id =
      (idsFrom 0 (s.hosts.map NetworkHost.ip)).map Prod.fst := by
  have := congrArg (List.map Prod.fst) hspec.1
  simpa [List.map_map, Function.comp] using this

theorem hosts_ids_nodup {s : AggSt} (hspec : hostsSpec s) :
    (s.hosts.map NetworkHost.id).Nodup := by
  rw [hosts_map_id_eq hspec]
  exact idsFrom_fst_nodup 0 _

theorem hosts_ids_dashFree {s : AggSt} (hspec : hostsSpec s) :
    ∀ x ∈ s.hosts.map NetworkHost.id, DashFree x := by
  rw [hosts_map_id_eq hspec]
  intro x hx
  rcases idsFrom_fst_ge 0 _ x hx with ⟨m, _, hxe⟩
  rw [hxe]
  exact natToDec_no_dash (m + 1)

theorem find?_of_idsFrom :
    ∀ (hosts : List NetworkHost) (k : Nat) (seen : List String) (a : String),
      hosts.map (fun h => (h.id, h.ip)) = idsFrom k seen → a ∈ seen →
      ∃ h, hosts.find? (fun h => h.ip = a) = some h ∧
        h.id = natToDec (k + seen.indexOf a + 1) ∧ h.ip = a := by
  intro hosts
  induction hosts with
  | nil =>
    intro k seen a hpairs hmem
    cases seen with
    | nil => simp at hmem
    | cons b rest => simp [idsFrom] at hpairs
  | cons h hs ih =>
    intro k seen a hpairs hmem
    cases seen with
    | nil => simp [idsFrom] at hpairs
    | cons b rest =>
      simp only [List.map_cons, idsFrom, List.cons.injEq, Prod.mk.injEq] at hpairs
      obtain ⟨⟨hid, hip⟩, hrest⟩ := hpairs
      by_cases hab : a = b
      · subst hab
        refine ⟨h, ?_, ?_, hip⟩
        · rw [List.find?_cons_of_pos _ (by simp [hip])]
        · rw [List.indexOf_cons_self]
          simpa using hid
      · have hmem' : a ∈ rest := by
          rcases List.mem_cons.1 hmem with hc | hc
          · exact absurd hc hab
          · exact hc
        rcases ih (k + 1) rest a hrest hmem' with ⟨h', hfind, hid', hip'⟩
        refine ⟨h', ?_, ?_, hip'⟩
        · rw [List.find?_cons_of_neg _ (by simp [hip]; exact Ne.symm hab), hfind]
        · rw [hid']
          have : (b :: rest).indexOf a = rest.indexOf a + 1 :=
            List.indexOf_cons_ne rest (Ne.symm hab)
          rw [this]
          congr 1
          omega

theorem lookupHost_foldRecords (rs : List PacketRec) (a : String)
    (ha : a ∈ firstSeen rs) :
    ∃ h, lookupHost (foldRecords rs) a = some h ∧
      h.id = natToDec ((firstSeen rs).indexOf a + 1) ∧ h.ip = a := by
  have hspec := foldRecords_hostsSpec rs
  have hpairs := hspec.1
  rw [foldRecords_map_ip] at hpairs
  have := find?_of_idsFrom (foldRecords rs).hosts 0 (firstSeen rs) a hpairs ha
  simpa [lookupHost] using this

/-! ### Claim C1: the three-record scenario -/

/-- Claim C1: folding the records `(t=0, 10.0.0.1→10.0.0.2, TCP, 100)`,
`(t=1, 10.0.0.2→10.0.0.1, TCP, 200)`, `(t=2, 10.0.0.1→10.0.0.3, UDP, 50)`
into a fresh aggregator yields exactly three hosts — ids `"1"`, `"2"`, `"3"`
for `10.0.0.1`, `10.0.0.2`, `10.0.0.3`, with counters `(3, 350)`, `(2, 300)`,
`(1, 50)` — and exactly three streams `1→2/TCP (1, 100)`, `2→1/TCP (1, 200)`,
`1→3/UDP (1, 50)`. -/
theorem scenario_three_records :
    (getVisualizationData (foldRecords
        [⟨"10.0.0.1", "10.0.0.2", "TCP", 100, 0⟩,
         ⟨"10.0.0.2", "10.0.0.1", "TCP", 200, 1000⟩,
         ⟨"10.0.0.1", "10.0.0.3", "UDP", 50, 2000⟩])).hosts =
      [⟨"1", "10.0.0.1", 3, 350⟩, ⟨"2", "10.0.0.2", 2, 300⟩, ⟨"3", "10.0.0.3", 1, 50⟩] ∧
    (getVisualizationData (foldRecords
        [⟨"10.0.0.1", "10.0.0.2", "TCP", 100, 0⟩,
         ⟨"10.0.0.2", "10.0.0.1", "TCP", 200, 1000⟩,
         ⟨"10.0.0.1", "10.0.0.3", "UDP", 50, 2000⟩])).streams.map
        (fun st => (st.source, st.target, st.protocol, st.packets, st.bytes)) =
      [("1", "2", "TCP", 1, 100), ("2", "1", "TCP", 1, 200), ("1", "3", "UDP", 1, 50)] := by
  constructor <;> decide

/-! ### Claim C2: host-id assignment -/

/-- Claim C2: for every record sequence, the host stored for an address `a` that
has appeared carries id `natToDec (i + 1)` where `i` is the position of `a` in
the first-appearance order; the id survives folding any further records; and no
other address's host carries the same id. -/
theorem hostId_assignment (rs rs' : List PacketRec) (a b : String)
    (ha : a ∈ firstSeen rs) :
    ∃ h, lookupHost (foldRecords rs) a = some h ∧ h.ip = a ∧
      h.id = natToDec ((firstSeen rs).indexOf a + 1) ∧
      (∃ h', lookupHost (foldRecords (rs ++ rs')) a = some h' ∧ h'.id = h.id) ∧
      (∀ h'', lookupHost (foldRecords rs) b = some h'' → b ≠ a → h''.id ≠ h.id) := by
  rcases lookupHost_foldRecords rs a ha with ⟨h, hfind, hid, hip⟩
  refine ⟨h, hfind, hip, hid, ?_, ?_⟩
  · have hpre : firstSeen rs <+: firstSeen (rs ++ rs') := by
      rw [show firstSeen (rs ++ rs') = firstSeenFrom (firstSeen rs) rs' from
        firstSeenFrom_append [] rs rs']
      exact firstSeenFrom_extend rs' (firstSeen rs)
    have ha' : a ∈ firstSeen (rs ++ rs') := hpre.subset ha
    rcases lookupHost_foldRecords (rs ++ rs') a ha' with ⟨h', hfind', hid', _⟩
    refine ⟨h', hfind', ?_⟩
    rw [hid', hid]
    obtain ⟨t, ht⟩ := hpre
    rw [← ht, List.indexOf_append_of_mem ha]
  · intro h'' hfind'' hba
    have hmem'' : h'' ∈ (foldRecords rs).hosts := List.mem_of_find?_eq_some hfind''
    have hip'' : h''.ip = b := by simpa using List.find?_some hfind''
    have hb : b ∈ firstSeen rs := by
      rw [← foldRecords_map_ip rs]
      exact hip'' ▸ List.mem_map_of_mem NetworkHost.ip hmem''
    rcases lookupHost_foldRecords rs b hb with ⟨hB, hfindB, hidB, _⟩
    rw [lookupHost] at hfindB hfind''
    rw [hfindB] at hfind''
    cases hfind''
    rw [hidB, hid]
    intro heq
    have hidx := natToDec_pos_inj heq
    exact hba (List.indexOf_inj hb ha |>.1 hidx)

/-! ### Claim C6: snapshot well-formedness -/

/-- Claim C6: in every snapshot produced after folding any record sequence,
every stream's endpoints are ids of hosts in the snapshot, no two hosts share
an address, and no two streams share the `(source, target, protocol)` key. -/
theorem snapshot_invariants (rs : List PacketRec) :
    (∀ st ∈ (getVisualizationData (foldRecords rs)).streams,
        st.source ∈ (getVisualizationData (foldRecords rs)).hosts.map NetworkHost.id ∧
        st.target ∈ (getVisualizationData (foldRecords rs)).hosts.map NetworkHost.id) ∧
    List.Pairwise (fun h1 h2 : NetworkHost => h1.ip ≠ h2.ip)
      (getVisualizationData (foldRecords rs)).hosts ∧
    List.Pairwise (fun s1 s2 : NetworkStream =>
        ¬(s1.source = s2.source ∧ s1.target = s2.target ∧ s1.protocol = s2.protocol))
      (getVisualizationData (foldRecords rs)).streams := by
  obtain ⟨hent, hkeys⟩ := foldRecords_streamsSpec rs
  have hspec := foldRecords_hostsSpec rs
  refine ⟨?_, ?_, ?_⟩
  · intro st hst
    rcases List.mem_map.1 hst with ⟨kv, hkv, hsnd⟩
    rcases hent kv hkv with ⟨_, hsrc, htgt⟩
    exact ⟨hsnd ▸ hsrc, hsnd ▸ htgt⟩
  · have := foldRecords_ips_nodup rs
    rw [List.Nodup, List.pairwise_map] at this
    exact this
  · rw [List.Nodup, List.pairwise_map] at hkeys
    have hpair : List.Pairwise (fun kv1 kv2 : String × NetworkStream =>
        ¬(kv1.2.source = kv2.2.source ∧ kv1.2.target = kv2.2.target ∧
          kv1.2.protocol = kv2.2.protocol)) (foldRecords rs).streams := by
      refine hkeys.imp_of_mem ?_
      intro kv1 kv2 h1 h2 hne htr
      rcases hent kv1 h1 with ⟨hk1, hs1, _⟩
      rcases hent kv2 h2 with ⟨hk2, _, _⟩
      apply hne
      rw [hk1, hk2, htr.1, htr.2.1, htr.2.2]
    rw [getVisualizationData, List.pairwise_map]
    exact hpair

/-- Witness for `hostId_assignment` at a concrete input. -/
theorem hostId_assignment_witness :
    ∃ h, lookupHost (foldRecords [⟨"10.0.0.1", "10.0.0.2", "TCP", 100, 0⟩]) "10.0.0.2"
        = some h ∧
      h.ip = "10.0.0.2" ∧
      h.id = natToDec ((firstSeen [⟨"10.0.0.1", "10.0.0.2", "TCP", 100, 0⟩]).indexOf
        "10.0.0.2" + 1) ∧
      (∃ h', lookupHost (foldRecords ([⟨"10.0.0.1", "10.0.0.2", "TCP", 100, 0⟩] ++
          [⟨"10.0.0.2", "10.0.0.3", "UDP", 7, 0⟩])) "10.0.0.2" = some h' ∧ h'.id = h.id) ∧
      (∀ h'', lookupHost (foldRecords [⟨"10.0.0.1", "10.0.0.2", "TCP", 100, 0⟩])
          "10.0.0.1" = some h'' → "10.0.0.1" ≠ "10.0.0.2" → h''.id ≠ h.id) :=
  hostId_assignment [⟨"10.0.0.1", "10.0.0.2", "TCP", 100, 0⟩]
    [⟨"10.0.0.2", "10.0.0.3", "UDP", 7, 0⟩] "10.0.0.2" "10.0.0.1" (by decide)

/-! ### Locating hosts and streams after a fold step -/

theorem goc_ret_find? (s : AggSt) (ip : String) :
    (getOrCreateHost s ip).1.hosts.find? (fun h => h.ip = ip) =
      some (getOrCreateHost s ip).2 := by
  cases hf : s.hosts.find? (fun h => h.ip = ip) with
  | some h => rw [goc_found hf]; exact hf
  | none =>
    rw [goc_new hf]
    simp only
    rw [List.find?_append, hf]
    simp

theorem goc_twice_same (s : AggSt) (a : String) :
    getOrCreateHost (getOrCreateHost s a).1 a =
      ((getOrCreateHost s a).1, (getOrCreateHost s a).2) :=
  goc_found (goc_ret_find? s a)

theorem find?_some_of_extend {α : Type} {l1 l2 : List α} {p : α → Bool} {x : α}
    (h : l1 <+: l2) (hf : l1.find? p = some x) : l2.find? p = some x := by
  obtain ⟨t, rfl⟩ := h
  rw [List.find?_append, hf]
  rfl

theorem find?_bumpHost_some {hs : List NetworkHost} {hid : String} {b : Nat}
    {a : String} {h : NetworkHost} (hf : hs.find? (fun x => x.ip = a) = some h) :
    (bumpHost hs hid b).find? (fun x => x.ip = a) =
      some (if h.id = hid then
        { h with packets := h.packets + 1, bytesTransferred := h.bytesTransferred + b }
      else h) := by
  unfold bumpHost
  rw [List.find?_map]
  have hp : ((fun x : NetworkHost => decide (x.ip = a)) ∘ (fun h => if h.id = hid then
      { h with packets := h.packets + 1, bytesTransferred := h.bytesTransferred + b }
      else h)) = (fun x : NetworkHost => decide (x.ip = a)) := by
    funext x
    by_cases hc : x.id = hid <;> simp [hc]
  rw [hp, hf]
  rfl

theorem bump_id_eq (h : NetworkHost) (hid : String) (b : Nat) :
    (if h.id = hid then
      { h with packets := h.packets + 1, bytesTransferred := h.bytesTransferred + b }
    else h).id = h.id := by
  split <;> rfl

theorem bump_ip_eq (h : NetworkHost) (hid : String) (b : Nat) :
    (if h.id = hid then
      { h with packets := h.packets + 1, bytesTransferred := h.bytesTransferred + b }
    else h).ip = h.ip := by
  split <;> rfl

theorem lookupHost_addRecord_src (s : AggSt) (r : PacketRec) :
    ∃ h, lookupHost (addRecord s r) r.srcIp = some h ∧
      h.id = (getOrCreateHost s r.srcIp).2.id ∧ h.ip = r.srcIp := by
  have h1 : (getOrCreateHost s r.srcIp).1.hosts.find? (fun x => x.ip = r.srcIp) =
      some (getOrCreateHost s r.srcIp).2 := goc_ret_find? s r.srcIp
  have h2 : (getOrCreateHost (getOrCreateHost s r.srcIp).1 r.dstIp).1.hosts.find?
      (fun x => x.ip = r.srcIp) = some (getOrCreateHost s r.srcIp).2 :=
    find?_some_of_extend (goc_hosts_extend _ r.dstIp) h1
  rw [lookupHost]
  simp only [addRecord]
  rw [find?_bumpHost_some (find?_bumpHost_some h2)]
  refine ⟨_, rfl, ?_, ?_⟩
  · rw [bump_id_eq, bump_id_eq]
  · rw [bump_ip_eq, bump_ip_eq]
    simpa using List.find?_some h1

theorem lookupHost_addRecord_dst (s : AggSt) (r : PacketRec) :
    ∃ h, lookupHost (addRecord s r) r.dstIp = some h ∧
      h.id = (getOrCreateHost (getOrCreateHost s r.srcIp).1 r.dstIp).2.id ∧
      h.ip = r.dstIp := by
  have h2 : (getOrCreateHost (getOrCreateHost s r.srcIp).1 r.dstIp).1.hosts.find?
      (fun x => x.ip = r.dstIp) =
      some (getOrCreateHost (getOrCreateHost s r.srcIp).1 r.dstIp).2 :=
    goc_ret_find? _ r.dstIp
  rw [lookupHost]
  simp only [addRecord]
  rw [find?_bumpHost_some (find?_bumpHost_some h2)]
  refine ⟨_, rfl, ?_, ?_⟩
  · rw [bump_id_eq, bump_id_eq]
  · rw [bump_ip_eq, bump_ip_eq]
    simpa using List.find?_some h2

theorem addRecord_streams_of_absent {s : AggSt} {r : PacketRec}
    (hf : s.streams.find? (fun kv => kv.1 = mkKey (getOrCreateHost s r.srcIp).2.id
      (getOrCreateHost (getOrCreateHost s r.srcIp).1 r.dstIp).2.id r.protocol) = none) :
    (addRecord s r).streams = s.streams ++
      [(mkKey (getOrCreateHost s r.srcIp).2.id
          (getOrCreateHost (getOrCreateHost s r.srcIp).1 r.dstIp).2.id r.protocol,
        { source := (getOrCreateHost s r.srcIp).2.id
          target := (getOrCreateHost (getOrCreateHost s r.srcIp).1 r.dstIp).2.id
          protocol := r.protocol
          packets := 1
          bytes := r.bytes
          timestamp := r.timestamp })] := by
  simp only [addRecord]
  rw [goc_streams, goc_streams, hf]
  unfold bumpStream
  rw [List.map_append]
  congr 1
  · have hnone : ∀ kv ∈ s.streams,
        ¬(kv.1 = mkKey (getOrCreateHost s r.srcIp).2.id
          (getOrCreateHost (getOrCreateHost s r.srcIp).1 r.dstIp).2.id r.protocol) := by
      intro kv hkv
      have := List.find?_eq_none.1 hf kv hkv
      simpa using this
    rw [List.map_congr_left (g := id) ?_, List.map_id]
    intro kv hkv
    simp [hnone kv hkv]
  · simp

theorem addRecord_streams_of_present {s : AggSt} {r : PacketRec}
    {e : String × NetworkStream}
    (hf : s.streams.find? (fun kv => kv.1 = mkKey (getOrCreateHost s r.srcIp).2.id
      (getOrCreateHost (getOrCreateHost s r.srcIp).1 r.dstIp).2.id r.protocol) = some e) :
    (addRecord s r).streams = bumpStream s.streams
      (mkKey (getOrCreateHost s r.srcIp).2.id
        (getOrCreateHost (getOrCreateHost s r.srcIp).1 r.dstIp).2.id r.protocol)
      r.bytes r.timestamp := by
  simp only [addRecord]
  rw [goc_streams, goc_streams, hf]

theorem find?_bumpStream_some {streams : List (String × NetworkStream)} {key : String}
    {b : Nat} {t : Rat} {e : String × NetworkStream}
    (hf : streams.find? (fun kv => kv.1 = key) = some e) :
    (bumpStream streams key b t).find? (fun kv => kv.1 = key) =
      some (if e.1 = key then
        (e.1, { e.2 with
                packets := e.2.packets + 1
                bytes := e.2.bytes + b
                timestamp := t })
      else e) := by
  unfold bumpStream
  rw [List.find?_map]
  have hp : ((fun kv : String × NetworkStream => decide (kv.1 = key)) ∘
      (fun kv => if kv.1 = key then
        (kv.1, { kv.2 with
                 packets := kv.2.packets + 1
                 bytes := kv.2.bytes + b
                 timestamp := t })
      else kv)) = (fun kv : String × NetworkStream => decide (kv.1 = key)) := by
    funext kv
    by_cases hc : kv.1 = key <;> simp [hc]
  rw [hp, hf]
  rfl

theorem touch_mem_self (seen : List String) (a : String) : a ∈ touch seen a := by
  unfold touch
  split
  · assumption
  · simp

theorem touch_mem_of_mem {seen : List String} {a : String} (h : a ∈ seen) (x : String) :
    a ∈ touch seen x :=
  (touch_extend seen x).subset h

/-- The host id handed out for the source address by one `addPacket` call is
dash-free (it is a decimal numeral). -/
theorem goc_ret_id_dashFree {s : AggSt} (hh : hostsSpec s) (ip : String) :
    DashFree (getOrCreateHost s ip).2.id :=
  hosts_ids_dashFree (hostsSpec_goc ip hh) _
    (List.mem_map_of_mem NetworkHost.id (goc_ret_mem s ip))

/-- After one `addPacket` call there is a stream entry whose
`(source, target, protocol)` triple is the one the call addressed. -/
theorem addRecord_stream_entry {s : AggSt} (hh : hostsSpec s) (hst : streamsSpec s)
    (r : PacketRec) :
    ∃ e ∈ (addRecord s r).streams,
      e.2.source = (getOrCreateHost s r.srcIp).2.id ∧
      e.2.target = (getOrCreateHost (getOrCreateHost s r.srcIp).1 r.dstIp).2.id ∧
      e.2.protocol = r.protocol := by
  cases hf : s.streams.find? (fun kv => kv.1 = mkKey (getOrCreateHost s r.srcIp).2.id
      (getOrCreateHost (getOrCreateHost s r.srcIp).1 r.dstIp).2.id r.protocol) with
  | none =>
    rw [addRecord_streams_of_absent hf]
    refine ⟨(mkKey (getOrCreateHost s r.srcIp).2.id
        (getOrCreateHost (getOrCreateHost s r.srcIp).1 r.dstIp).2.id r.protocol,
      { source := (getOrCreateHost s r.srcIp).2.id
        target := (getOrCreateHost (getOrCreateHost s r.srcIp).1 r.dstIp).2.id
        protocol := r.protocol
        packets := 1
        bytes := r.bytes
        timestamp := r.timestamp }), ?_, rfl, rfl, rfl⟩
    simp
  | some e =>
    rw [addRecord_streams_of_present hf]
    have hkey : e.1 = mkKey (getOrCreateHost s r.srcIp).2.id
        (getOrCreateHost (getOrCreateHost s r.srcIp).1 r.dstIp).2.id r.protocol := by
      simpa using List.find?_some hf
    have hmem : e ∈ s.streams := List.mem_of_find?_eq_some hf
    rcases hst.1 e hmem with ⟨hkeq, hsmem, htmem⟩
    have htriple := mkKey_inj (hosts_ids_dashFree hh _ hsmem) (hosts_ids_dashFree hh _ htmem)
      (goc_ret_id_dashFree hh r.srcIp)
      (goc_ret_id_dashFree (hostsSpec_goc r.srcIp hh) r.dstIp)
      (hkeq.symm.trans hkey)
    refine ⟨(e.1, { e.2 with
        packets := e.2.packets + 1
        bytes := e.2.bytes + r.bytes
        timestamp := r.timestamp }), ?_, htriple.1, htriple.2.1, htriple.2.2⟩
    unfold bumpStream
    refine List.mem_map.2 ⟨e, hmem, ?_⟩
    rw [if_pos hkey]

/-- Every stream entry survives further `addPacket` calls with its key and
`(source, target, protocol)` triple unchanged. -/
theorem addRecord_stream_persist (s : AggSt) (r : PacketRec) :
    ∀ kv ∈ s.streams, ∃ kv' ∈ (addRecord s r).streams, kv'.1 = kv.1 ∧
      kv'.2.source = kv.2.source ∧ kv'.2.target = kv.2.target ∧
      kv'.2.protocol = kv.2.protocol := by
  intro kv hkv
  have hmem0 : kv ∈ (match (getOrCreateHost (getOrCreateHost s r.srcIp).1 r.dstIp).1.streams.find?
      (fun kv => kv.1 = mkKey (getOrCreateHost s r.srcIp).2.id
        (getOrCreateHost (getOrCreateHost s r.srcIp).1 r.dstIp).2.id r.protocol) with
    | some _ => (getOrCreateHost (getOrCreateHost s r.srcIp).1 r.dstIp).1.streams
    | none => (getOrCreateHost (getOrCreateHost s r.srcIp).1 r.dstIp).1.streams ++
        [((mkKey (getOrCreateHost s r.srcIp).2.id
            (getOrCreateHost (getOrCreateHost s r.srcIp).1 r.dstIp).2.id r.protocol,
          { source := (getOrCreateHost s r.srcIp).2.id
            target := (getOrCreateHost (getOrCreateHost s r.srcIp).1 r.dstIp).2.id
            protocol := r.protocol
            packets := 0
            bytes := 0
            timestamp := r.timestamp }) : String × NetworkStream)]) := by
    have hkv' : kv ∈ (getOrCreateHost (getOrCreateHost s r.srcIp).1 r.dstIp).1.streams := by
      rw [goc_streams, goc_streams]
      exact hkv
    split
    · exact hkv'
    · exact List.mem_append_left _ hkv'
  simp only [addRecord]
  by_cases hc : kv.1 = mkKey (getOrCreateHost s r.srcIp).2.id
      (getOrCreateHost (getOrCreateHost s r.srcIp).1 r.dstIp).2.id r.protocol
  · refine ⟨((kv.1, { kv.2 with
        packets := kv.2.packets + 1
        bytes := kv.2.bytes + r.bytes
        timestamp := r.timestamp }) : String × NetworkStream), ?_, rfl, rfl, rfl, rfl⟩
    unfold bumpStream
    exact List.mem_map.2 ⟨kv, hmem0, by rw [if_pos hc]⟩
  · refine ⟨kv, ?_, rfl, rfl, rfl, rfl⟩
    unfold bumpStream
    exact List.mem_map.2 ⟨kv, hmem0, by rw [if_neg hc]⟩

/-! ### Claim C10: self-loop records -/

theorem goc_ret_counters (s : AggSt) (ip : String) :
    (getOrCreateHost s ip).2.packets = ((lookupHost s ip).map NetworkHost.packets).getD 0 ∧
    (getOrCreateHost s ip).2.bytesTransferred =
      ((lookupHost s ip).map NetworkHost.bytesTransferred).getD 0 := by
  cases hf : s.hosts.find? (fun h => h.ip = ip) with
  | some h => rw [goc_found hf]; simp [lookupHost, hf]
  | none => rw [goc_new hf]; simp [lookupHost, hf]

/-- Claim C10: folding a record whose source address equals its destination
resolves both endpoints to the same single host: that host's `packets` rises
by 2 and its `bytesTransferred` by twice the record's length, exactly one
self-referencing stream (source id = target id, at key `id-id-protocol`) has
its `packets` raised by 1 and its `bytes` by the record's length, and every
other stream entry is carried over unchanged. -/
theorem self_loop_fold (rs : List PacketRec) (a P : String) (b : Nat) (t : Rat) :
    ∃ h, lookupHost (foldRecords (rs ++ [⟨a, a, P, b, t⟩])) a = some h ∧
      h.packets = ((lookupHost (foldRecords rs) a).map NetworkHost.packets).getD 0 + 2 ∧
      h.bytesTransferred =
        ((lookupHost (foldRecords rs) a).map NetworkHost.bytesTransferred).getD 0 + 2 * b ∧
      (∃ e, (foldRecords (rs ++ [⟨a, a, P, b, t⟩])).streams.find?
            (fun kv => kv.1 = mkKey h.id h.id P) = some e ∧
        e.2.source = h.id ∧ e.2.target = h.id ∧ e.2.protocol = P ∧
        e.2.packets = (((foldRecords rs).streams.find?
            (fun kv => kv.1 = mkKey h.id h.id P)).map (fun kv => kv.2.packets)).getD 0 + 1 ∧
        e.2.bytes = (((foldRecords rs).streams.find?
            (fun kv => kv.1 = mkKey h.id h.id P)).map (fun kv => kv.2.bytes)).getD 0 + b) ∧
      (∀ kv ∈ (foldRecords rs).streams, kv.1 ≠ mkKey h.id h.id P →
        kv ∈ (foldRecords (rs ++ [⟨a, a, P, b, t⟩])).streams) := by
  have hh := foldRecords_hostsSpec rs
  have hst := foldRecords_streamsSpec rs
  have hfold : foldRecords (rs ++ [(⟨a, a, P, b, t⟩ : PacketRec)]) =
      addRecord (foldRecords rs) ⟨a, a, P, b, t⟩ := by
    rw [foldRecords_append]
    rfl
  rw [hfold]
  set s := foldRecords rs with hsdef
  have h2 : (getOrCreateHost (getOrCreateHost s a).1 a).1.hosts.find?
      (fun x => x.ip = a) = some (getOrCreateHost s a).2 := by
    rw [goc_twice_same]
    exact goc_ret_find? s a
  have hlook : lookupHost (addRecord s ⟨a, a, P, b, t⟩) a =
      some { (getOrCreateHost s a).2 with
             packets := (getOrCreateHost s a).2.packets + 1 + 1
             bytesTransferred := (getOrCreateHost s a).2.bytesTransferred + b + b } := by
    rw [lookupHost]
    simp only [addRecord]
    rw [find?_bumpHost_some (find?_bumpHost_some h2)]
    simp only [goc_twice_same]
    simp
  refine ⟨_, hlook, ?_, ?_, ?_, ?_⟩
  · have := (goc_ret_counters s a).1
    simp only [this]
  · have := (goc_ret_counters s a).2
    simp only [this]
    omega
  · -- the self-referencing stream entry
    cases hks : s.streams.find?
        (fun kv => kv.1 = mkKey (getOrCreateHost s a).2.id (getOrCreateHost s a).2.id P) with
    | none =>
      have hks2 : s.streams.find? (fun kv => kv.1 = mkKey (getOrCreateHost s a).2.id
          (getOrCreateHost (getOrCreateHost s a).1 a).2.id P) = none := by
        rw [goc_twice_same]
        exact hks
      have habs := addRecord_streams_of_absent (r := ⟨a, a, P, b, t⟩) hks2
      simp only [goc_twice_same] at habs
      rw [habs]
      rw [List.find?_append, hks]
      simp only [Option.none_or]
      rw [List.find?_cons_of_pos _ (by simp)]
      exact ⟨_, rfl, rfl, rfl, rfl, by simp [hks], by simp [hks]⟩
    | some e =>
      have hks2 : s.streams.find? (fun kv => kv.1 = mkKey (getOrCreateHost s a).2.id
          (getOrCreateHost (getOrCreateHost s a).1 a).2.id P) = some e := by
        rw [goc_twice_same]
        exact hks
      have hpres := addRecord_streams_of_present (r := ⟨a, a, P, b, t⟩) hks2
      simp only [goc_twice_same] at hpres
      rw [hpres]
      have hkeyE : e.1 = mkKey (getOrCreateHost s a).2.id (getOrCreateHost s a).2.id P := by
        simpa using List.find?_some hks
      rw [find?_bumpStream_some hks, if_pos hkeyE]
      have hmemE : e ∈ s.streams := List.mem_of_find?_eq_some hks
      rcases hst.1 e hmemE with ⟨hkeq, hsmem, htmem⟩
      have htriple := mkKey_inj (hosts_ids_dashFree hh _ hsmem)
        (hosts_ids_dashFree hh _ htmem)
        (goc_ret_id_dashFree hh a) (goc_ret_id_dashFree hh a)
        (hkeq.symm.trans hkeyE)
      refine ⟨_, rfl, htriple.1, htriple.2.1, htriple.2.2, by simp [hks], by simp [hks]⟩
  · -- all other stream entries are carried over unchanged
    intro kv hkv hne
    cases hks : s.streams.find?
        (fun kv => kv.1 = mkKey (getOrCreateHost s a).2.id (getOrCreateHost s a).2.id P) with
    | none =>
      have hks2 : s.streams.find? (fun kv => kv.1 = mkKey (getOrCreateHost s a).2.id
          (getOrCreateHost (getOrCreateHost s a).1 a).2.id P) = none := by
        rw [goc_twice_same]
        exact hks
      have habs := addRecord_streams_of_absent (r := ⟨a, a, P, b, t⟩) hks2
      simp only [goc_twice_same] at habs
      rw [habs]
      exact List.mem_append_left _ hkv
    | some e =>
      have hks2 : s.streams.find? (fun kv => kv.1 = mkKey (getOrCreateHost s a).2.id
          (getOrCreateHost (getOrCreateHost s a).1 a).2.id P) = some e := by
        rw [goc_twice_same]
        exact hks
      have hpres := addRecord_streams_of_present (r := ⟨a, a, P, b, t⟩) hks2
      simp only [goc_twice_same] at hpres
      rw [hpres]
      unfold bumpStream
      exact List.mem_map.2 ⟨kv, hkv, by rw [if_neg hne]⟩

/-! ### Claim C5: directional edge separation -/

/-- Claim C5: folding `A→B` and `B→A` with the same protocol (distinct
addresses `A ≠ B`) into the same aggregator leaves two distinct stream
entries in the snapshot — one `id(A)→id(B)` and one `id(B)→id(A)` — never a
single combined entry. -/
theorem directional_edges (rs : List PacketRec) (A B P : String) (b1 b2 : Nat)
    (t1 t2 : Rat) (hAB : A ≠ B) :
    ∃ hA hB,
      lookupHost (foldRecords (rs ++ [⟨A, B, P, b1, t1⟩, ⟨B, A, P, b2, t2⟩])) A = some hA ∧
      lookupHost (foldRecords (rs ++ [⟨A, B, P, b1, t1⟩, ⟨B, A, P, b2, t2⟩])) B = some hB ∧
      hA.id ≠ hB.id ∧
      ∃ e1 ∈ (getVisualizationData
          (foldRecords (rs ++ [⟨A, B, P, b1, t1⟩, ⟨B, A, P, b2, t2⟩]))).streams,
      ∃ e2 ∈ (getVisualizationData
          (foldRecords (rs ++ [⟨A, B, P, b1, t1⟩, ⟨B, A, P, b2, t2⟩]))).streams,
        e1.source = hA.id ∧ e1.target = hB.id ∧ e1.protocol = P ∧
        e2.source = hB.id ∧ e2.target = hA.id ∧ e2.protocol = P ∧ e1 ≠ e2 := by
  set r1 : PacketRec := ⟨A, B, P, b1, t1⟩ with hr1
  set r2 : PacketRec := ⟨B, A, P, b2, t2⟩ with hr2
  have hsplit : rs ++ [r1, r2] = (rs ++ [r1]) ++ [r2] := by
    simp
  have hfold1 : foldRecords (rs ++ [r1]) = addRecord (foldRecords rs) r1 := by
    rw [foldRecords_append]
    rfl
  have hfold2 : foldRecords (rs ++ [r1, r2]) =
      addRecord (foldRecords (rs ++ [r1])) r2 := by
    rw [hsplit, foldRecords_append]
    rfl
  -- first-appearance membership
  have hseen1 : firstSeen (rs ++ [r1]) = touch (touch (firstSeen rs) A) B := by
    rw [show firstSeen (rs ++ [r1]) = firstSeenFrom (firstSeen rs) [r1] from
      firstSeenFrom_append [] rs [r1]]
    rfl
  have hseenF : firstSeen (rs ++ [r1, r2]) =
      firstSeenFrom (firstSeen (rs ++ [r1])) [r2] := by
    rw [hsplit]
    exact firstSeenFrom_append [] (rs ++ [r1]) [r2]
  have hA1 : A ∈ firstSeen (rs ++ [r1]) := by
    rw [hseen1]
    exact touch_mem_of_mem (touch_mem_self _ A) B
  have hB1 : B ∈ firstSeen (rs ++ [r1]) := by
    rw [hseen1]
    exact touch_mem_self _ B
  have hpreF : firstSeen (rs ++ [r1]) <+: firstSeen (rs ++ [r1, r2]) := by
    rw [hseenF]
    exact firstSeenFrom_extend [r2] _
  have hAF : A ∈ firstSeen (rs ++ [r1, r2]) := hpreF.subset hA1
  have hBF : B ∈ firstSeen (rs ++ [r1, r2]) := hpreF.subset hB1
  have hidxA : (firstSeen (rs ++ [r1, r2])).indexOf A = (firstSeen (rs ++ [r1])).indexOf A := by
    obtain ⟨tl, htl⟩ := hpreF
    rw [← htl, List.indexOf_append_of_mem hA1]
  have hidxB : (firstSeen (rs ++ [r1, r2])).indexOf B = (firstSeen (rs ++ [r1])).indexOf B := by
    obtain ⟨tl, htl⟩ := hpreF
    rw [← htl, List.indexOf_append_of_mem hB1]
  -- lookups in the final state
  rcases lookupHost_foldRecords (rs ++ [r1, r2]) A hAF with ⟨hA, hfindA, hidA, hipA⟩
  rcases lookupHost_foldRecords (rs ++ [r1, r2]) B hBF with ⟨hB, hfindB, hidB, hipB⟩
  -- lookups in the intermediate state
  rcases lookupHost_foldRecords (rs ++ [r1]) A hA1 with ⟨hA1h, hfindA1, hidA1, _⟩
  rcases lookupHost_foldRecords (rs ++ [r1]) B hB1 with ⟨hB1h, hfindB1, hidB1, _⟩
  have hneq : hA.id ≠ hB.id := by
    rw [hidA, hidB]
    intro heq
    have := natToDec_pos_inj heq
    exact hAB ((List.indexOf_inj hAF hBF).1 this)
  -- the B→A entry produced by the second fold
  have hh1 := foldRecords_hostsSpec (rs ++ [r1])
  have hst1 := foldRecords_streamsSpec (rs ++ [r1])
  rcases addRecord_stream_entry hh1 hst1 r2 with ⟨e2, he2mem, hsrc2, htgt2, hproto2⟩
  -- the ids the second fold used are the final ids of B and A
  rcases lookupHost_addRecord_src (foldRecords (rs ++ [r1])) r2 with ⟨hB', hfindB', hidB', _⟩
  rcases lookupHost_addRecord_dst (foldRecords (rs ++ [r1])) r2 with ⟨hA', hfindA', hidA', _⟩
  have hBeq : (getOrCreateHost (foldRecords (rs ++ [r1])) r2.srcIp).2.id = hB.id := by
    rw [← hidB']
    have : lookupHost (foldRecords (rs ++ [r1, r2])) B = some hB' := by
      rw [hfold2]
      exact hfindB'
    rw [this] at hfindB
    cases hfindB
    rfl
  have hAeq : (getOrCreateHost (getOrCreateHost (foldRecords (rs ++ [r1])) r2.srcIp).1
      r2.dstIp).2.id = hA.id := by
    rw [← hidA']
    have : lookupHost (foldRecords (rs ++ [r1, r2])) A = some hA' := by
      rw [hfold2]
      exact hfindA'
    rw [this] at hfindA
    cases hfindA
    rfl
  -- the A→B entry produced by the first fold, carried into the final state
  have hh0 := foldRecords_hostsSpec rs
  have hst0 := foldRecords_streamsSpec rs
  rcases addRecord_stream_entry hh0 hst0 r1 with ⟨e1, he1mem, hsrc1, htgt1, hproto1⟩
  rcases lookupHost_addRecord_src (foldRecords rs) r1 with ⟨hA1', hfindA1', hidA1', _⟩
  rcases lookupHost_addRecord_dst (foldRecords rs) r1 with ⟨hB1', hfindB1', hidB1', _⟩
  have hA1eq : (getOrCreateHost (foldRecords rs) r1.srcIp).2.id = hA.id := by
    rw [← hidA1']
    have : lookupHost (foldRecords (rs ++ [r1])) A = some hA1' := by
      rw [hfold1]
      exact hfindA1'
    rw [this] at hfindA1
    cases hfindA1
    rw [hidA1, hidA, hidxA]
  have hB1eq : (getOrCreateHost (getOrCreateHost (foldRecords rs) r1.srcIp).1
      r1.dstIp).2.id = hB.id := by
    rw [← hidB1']
    have : lookupHost (foldRecords (rs ++ [r1])) B = some hB1' := by
      rw [hfold1]
      exact hfindB1'
    rw [this] at hfindB1
    cases hfindB1
    rw [hidB1, hidB, hidxB]
  have he1mem1 : e1 ∈ (foldRecords (rs ++ [r1])).streams := by
    rw [hfold1]
    exact he1mem
  rcases addRecord_stream_persist (foldRecords (rs ++ [r1])) r2 e1 he1mem1 with
    ⟨e1', he1'mem, _, hs1', ht1', hp1'⟩
  refine ⟨hA, hB, hfindA, hfindB, hneq, e1'.2, ?_, e2.2, ?_, ?_, ?_, ?_, ?_, ?_, ?_, ?_⟩
  · rw [getVisualizationData, hfold2]
    exact List.mem_map_of_mem Prod.snd he1'mem
  · rw [getVisualizationData, hfold2]
    exact List.mem_map_of_mem Prod.snd he2mem
  · rw [hs1', hsrc1, hA1eq]
  · rw [ht1', htgt1, hB1eq]
  · rw [hp1', hproto1]
  · rw [hsrc2, hBeq]
  · rw [htgt2, hAeq]
  · rw [hproto2]
  · intro hcontra
    apply hneq
    have h1 : e1'.2.source = hA.id := by rw [hs1', hsrc1, hA1eq]
    have h2 : e2.2.source = hB.id := by rw [hsrc2, hBeq]
    rw [← h1, hcontra, h2]

/-- Witness for `directional_edges` at a concrete input. -/
theorem directional_edges_witness :
    ∃ hA hB,
      lookupHost (foldRecords ([] ++ [⟨"10.0.0.1", "10.0.0.2", "TCP", 1, 0⟩,
        ⟨"10.0.0.2", "10.0.0.1", "TCP", 2, 0⟩])) "10.0.0.1" = some hA ∧
      lookupHost (foldRecords ([] ++ [⟨"10.0.0.1", "10.0.0.2", "TCP", 1, 0⟩,
        ⟨"10.0.0.2", "10.0.0.1", "TCP", 2, 0⟩])) "10.0.0.2" = some hB ∧
      hA.id ≠ hB.id ∧
      ∃ e1 ∈ (getVisualizationData (foldRecords ([] ++ [⟨"10.0.0.1", "10.0.0.2", "TCP", 1, 0⟩,
        ⟨"10.0.0.2", "10.0.0.1", "TCP", 2, 0⟩]))).streams,
      ∃ e2 ∈ (getVisualizationData (foldRecords ([] ++ [⟨"10.0.0.1", "10.0.0.2", "TCP", 1, 0⟩,
        ⟨"10.0.0.2", "10.0.0.1", "TCP", 2, 0⟩]))).streams,
        e1.source = hA.id ∧ e1.target = hB.id ∧ e1.protocol = "TCP" ∧
        e2.source = hB.id ∧ e2.target = hA.id ∧ e2.protocol = "TCP" ∧ e1 ≠ e2 :=
  directional_edges [] "10.0.0.1" "10.0.0.2" "TCP" 1 2 0 0 (by decide)

/-! ### Claim C7: decoder buffer bound -/

theorem stdoutData_buffer_le (buf : String) (agg : AggSt) (chunk : String) :
    ((stdoutData buf agg chunk).1).length ≤ 1000000 := by
  unfold stdoutData
  cases hd : decodeRecord (buf ++ chunk) with
  | some r => simp only [hd]; simp
  | none =>
    simp only [hd, String.length_append]
    by_cases h : 1000000 < buf.length + chunk.length
    · simp [h]
    · simp [h]
      omega

theorem runStdout_aux (chunks : List String) :
    ∀ st : String × AggSt, st.1.length ≤ 1000000 →
      ((chunks.foldl (fun st chunk =>
        let r := stdoutData st.1 st.2 chunk
        (r.1, r.2.1)) st).1).length ≤ 1000000 := by
  induction chunks with
  | nil => intro st h; exact h
  | cons c cs ih =>
    intro st _
    rw [List.foldl_cons]
    exact ih _ (stdoutData_buffer_le st.1 st.2 c)

/-- Claim C7: the retained buffer never exceeds 1,000,000 code units once a
chunk has been fully processed — for a single step from any state, and along
any chunk sequence from a fresh session — and a buffer that exceeds the
ceiling without a successful decode is discarded entirely. -/
theorem decoder_buffer_bounded (buf chunk : String) (agg : AggSt)
    (chunks : List String) :
    ((stdoutData buf agg chunk).1).length ≤ 1000000 ∧
    ((runStdout chunks).1).length ≤ 1000000 ∧
    (decodeRecord (buf ++ chunk) = none → (buf ++ chunk).length > 1000000 →
      (stdoutData buf agg chunk).1 = "") := by
  refine ⟨stdoutData_buffer_le buf agg chunk, runStdout_aux chunks ("", freshAgg) (by simp), ?_⟩
  intro hd hlen
  unfold stdoutData
  simp only [hd, if_pos hlen]

theorem decodeRecord_all_x (n : Nat) :
    decodeRecord (String.mk (List.replicate (n + 1) 'x')) = none := by
  unfold decodeRecord jsonParse
  simp only [String.length, String.data, List.length_replicate, List.replicate_succ]
  simp [parseValue, skipWs, isWsChar, parseNumber, takeDigits]

/-- Witness for `decoder_buffer_bounded`: an over-long never-parsing buffer is
discarded entirely on the next processed chunk. -/
theorem decoder_buffer_bounded_witness :
    (stdoutData (String.mk (List.replicate 1000001 'x')) freshAgg "").1 = "" := by
  apply (decoder_buffer_bounded (String.mk (List.replicate 1000001 'x')) "" freshAgg []).2.2
  · rw [String.append_empty]
    exact decodeRecord_all_x 1000000
  · rw [String.append_empty]
    simp only [String.length, List.length_replicate]
    norm_num

set_option maxRecDepth 1000000 in
/-- Claim C3 (evaluation at the failing input): one chunk holding a single
complete record emits one `networkUpdate`, but one chunk holding two complete
records emits nothing at all — `JSON.parse` of the concatenation fails, the
aggregator is untouched, and both records stay in the buffer — where the claim
demands one emitted Packet Record per complete record. -/
theorem two_records_in_one_chunk :
    (stdoutData "" freshAgg sampleRecordJson).2.2.length = 1 ∧
    (stdoutData "" freshAgg (sampleRecordJson ++ sampleRecordJson)).2.2 = [] ∧
    (stdoutData "" freshAgg (sampleRecordJson ++ sampleRecordJson)).2.1 = freshAgg ∧
    (stdoutData "" freshAgg (sampleRecordJson ++ sampleRecordJson)).1 =
      sampleRecordJson ++ sampleRecordJson :=
  ⟨rfl, rfl, rfl, rfl⟩

/-- Claim C8 (amended): when the buffer parses as one JSON value but the record
fields are missing/ill-typed (the `addPacket` field accesses throw), the
failure is silently swallowed — no event of any kind is emitted, the session
continues, the aggregator is unchanged, and the buffer is retained (cleared
only by the size ceiling). -/
theorem malformed_complete_swallowed (buf chunk : String) (agg : AggSt) (j : Json)
    (hj : jsonParse (buf ++ chunk) = some j) (hx : extractPacket j = none) :
    stdoutData buf agg chunk =
      (if (buf ++ chunk).length > 1000000 then "" else buf ++ chunk, agg, []) := by
  have hd : decodeRecord (buf ++ chunk) = none := by
    unfold decodeRecord
    rw [hj]
    simp [hx]
  unfold stdoutData
  simp only [hd]

set_option maxRecDepth 100000 in
/-- Witness for `malformed_complete_swallowed`: the complete JSON value `{}`
has no `_source`, so the record is dropped silently and the buffer kept. -/
theorem malformed_complete_swallowed_witness :
    stdoutData "\x7b\x7d" freshAgg "" =
      (if ("\x7b\x7d" ++ "").length > 1000000 then "" else "\x7b\x7d" ++ "", freshAgg, []) :=
  malformed_complete_swallowed "\x7b\x7d" "" freshAgg (Json.obj []) rfl rfl

set_option maxRecDepth 100000 in
/-- Claim C8 (counterexample to the claim as stated): on the
malformed-but-complete input `{}` the decoder reports nothing to the caller —
the emitted event list is empty, not a decode-error notification. -/
theorem malformed_complete_not_reported :
    jsonParse "\x7b\x7d" = some (Json.obj []) ∧
    stdoutData "" freshAgg "\x7b\x7d" = ("\x7b\x7d", freshAgg, []) :=
  ⟨rfl, rfl⟩

/-- Claim C4 (evaluation at the failing input): with the synthetic source,
sessions share one module-level generator and one aggregator.  Session A
starts `test` and a record is folded; session B then starts `test`
concurrently (a no-op on the running singleton); the very next broadcast
snapshot — delivered to B as well, since `io.emit` reaches every client —
already contains A's host `10.0.0.1`.  The aggregator also survives A's
disconnect (`stop`), so even a later session resumes A's graph rather than an
empty one. -/
theorem test_source_shared_across_sessions :
    (∃ d, (((TestGen.init.start).tick ⟨"10.0.0.1", "10.0.0.2", "TCP", 100, 0⟩).1.start.tick
        ⟨"192.168.1.1", "192.168.1.2", "UDP", 50, 0⟩).2 = [SrvEvent.networkUpdate d] ∧
      "10.0.0.1" ∈ d.hosts.map NetworkHost.ip) ∧
    "10.0.0.1" ∈ ((((TestGen.init.start).tick
        ⟨"10.0.0.1", "10.0.0.2", "TCP", 100, 0⟩).1.stop).start).agg.hosts.map
        NetworkHost.ip := by
  refine ⟨⟨getVisualizationData (addRecord (addRecord freshAgg
    ⟨"10.0.0.1", "10.0.0.2", "TCP", 100, 0⟩)
    ⟨"192.168.1.1", "192.168.1.2", "UDP", 50, 0⟩), ?_, ?_⟩, ?_⟩ <;> decide

/-- Claim C9 (amended): a start-capture request for a non-test interface
always spawns a new subprocess; a second request while one is running leaves
two subprocesses running concurrently, the session handle keeping only the
newer pid, and disconnect kills only that newer one — the first subprocess
survives even session teardown. -/
theorem double_start_spawns_second (c : ConnSt) (w : ProcWorld) (g : TestGen)
    (iface : String) (hif : iface ≠ "test") :
    ((onStartCapture (onStartCapture c w g iface).1 (onStartCapture c w g iface).2.1
        (onStartCapture c w g iface).2.2 iface).2.1).liveProcs =
      w.liveProcs ++ [w.nextPid, w.nextPid + 1] ∧
    ((onStartCapture (onStartCapture c w g iface).1 (onStartCapture c w g iface).2.1
        (onStartCapture c w g iface).2.2 iface).1).capture = some (w.nextPid + 1) ∧
    w.nextPid ∈ ((onDisconnect
        (onStartCapture (onStartCapture c w g iface).1 (onStartCapture c w g iface).2.1
          (onStartCapture c w g iface).2.2 iface).1
        (onStartCapture (onStartCapture c w g iface).1 (onStartCapture c w g iface).2.1
          (onStartCapture c w g iface).2.2 iface).2.1
        (onStartCapture (onStartCapture c w g iface).1 (onStartCapture c w g iface).2.1
          (onStartCapture c w g iface).2.2 iface).2.2).2.1).liveProcs := by
  simp only [onStartCapture, if_neg hif, spawnCapture]
  refine ⟨by simp, by trivial, ?_⟩
  simp only [onDisconnect, killProc]
  rw [List.mem_filter]
  constructor
  · simp
  · simp

/-- Witness for `double_start_spawns_second` at a concrete input. -/
theorem double_start_spawns_second_witness :
    ((onStartCapture (onStartCapture ⟨none⟩ ⟨0, []⟩ TestGen.init "eth0").1
        (onStartCapture ⟨none⟩ ⟨0, []⟩ TestGen.init "eth0").2.1
        (onStartCapture ⟨none⟩ ⟨0, []⟩ TestGen.init "eth0").2.2 "eth0").2.1).liveProcs =
      ([] : List Nat) ++ [0, 0 + 1] ∧
    ((onStartCapture (onStartCapture ⟨none⟩ ⟨0, []⟩ TestGen.init "eth0").1
        (onStartCapture ⟨none⟩ ⟨0, []⟩ TestGen.init "eth0").2.1
        (onStartCapture ⟨none⟩ ⟨0, []⟩ TestGen.init "eth0").2.2 "eth0").1).capture =
      some (0 + 1) ∧
    0 ∈ ((onDisconnect
        (onStartCapture (onStartCapture ⟨none⟩ ⟨0, []⟩ TestGen.init "eth0").1
          (onStartCapture ⟨none⟩ ⟨0, []⟩ TestGen.init "eth0").2.1
          (onStartCapture ⟨none⟩ ⟨0, []⟩ TestGen.init "eth0").2.2 "eth0").1
        (onStartCapture (onStartCapture ⟨none⟩ ⟨0, []⟩ TestGen.init "eth0").1
          (onStartCapture ⟨none⟩ ⟨0, []⟩ TestGen.init "eth0").2.1
          (onStartCapture ⟨none⟩ ⟨0, []⟩ TestGen.init "eth0").2.2 "eth0").2.1
        (onStartCapture (onStartCapture ⟨none⟩ ⟨0, []⟩ TestGen.init "eth0").1
          (onStartCapture ⟨none⟩ ⟨0, []⟩ TestGen.init "eth0").2.1
          (onStartCapture ⟨none⟩ ⟨0, []⟩ TestGen.init "eth0").2.2 "eth0").2.2).2.1).liveProcs :=
  double_start_spawns_second ⟨none⟩ ⟨0, []⟩ TestGen.init "eth0" (by decide)

/-- Claim C9 (counterexample to the claim as stated): two start-capture
requests on one session leave two capture subprocesses running at once. -/
theorem double_start_counterexample :
    ((onStartCapture (onStartCapture ⟨none⟩ ⟨0, []⟩ TestGen.init "eth0").1
        (onStartCapture ⟨none⟩ ⟨0, []⟩ TestGen.init "eth0").2.1
        (onStartCapture ⟨none⟩ ⟨0, []⟩ TestGen.init "eth0").2.2 "eth0").2.1).liveProcs.length
      = 2 := by
  decide

end NetVis
